import Mathlib

/-!
Verification development for the Multi-Agent financial-analysis orchestrator.

The Python sources (base_agent.py, data_fetcher.py, analyzer.py, visualizer.py,
summarizer.py, orchestrator.py) are shallowly embedded below:

* Python floats are modelled by `RF` (a rational together with NaN and the two
  infinities); `round(x, n)` is modelled by rounding to the nearest multiple of
  `10^(-n)` (Python uses banker's rounding on binary floats for ties; no theorem
  below depends on the tie-breaking direction), and `math`/numpy square roots by
  a rational approximation (no theorem depends on its exact value).
* pandas DataFrames are modelled by `DF`: a list of present columns plus a list
  of rows over a fixed record of fields (the schema of the financial sample
  workbook that the code reads).
* Python dicts keyed by strings are association lists with replace-or-append
  insertion (`dinsert`), preserving insertion order like Python dicts.
* The shared/private agent context is the typed record `SharedCtx` covering the
  keys the code actually reads and writes; unmodelled caller-supplied keys are
  kept in `extra` so that Python truthiness of the dict is preserved.
* The external collaborators (the Excel workbook and the OpenAI calls) are
  oracles in `Env`: each call either returns a value or raises, uniformly over
  one request.
* Exceptions are `Except String`; every `try/except` of the source becomes a
  `match` on such a value.
-/

set_option linter.unusedVariables false

namespace MultiAgent

/-! ### Python string helpers

These are written over `List Char` with structural recursion (rather than the
positional core `String` functions) so that concrete runs reduce inside the
kernel. -/

/-- ASCII lower-casing of one character. -/
def lowerChar (c : Char) : Char :=
  if 65 ≤ c.toNat ∧ c.toNat ≤ 90 then Char.ofNat (c.toNat + 32) else c

/-- ASCII upper-casing of one character. -/
def upperChar (c : Char) : Char :=
  if 97 ≤ c.toNat ∧ c.toNat ≤ 122 then Char.ofNat (c.toNat - 32) else c

/-- Python `s.lower()` (the strings involved are ASCII). -/
def pyLower (s : String) : String := String.mk (s.data.map lowerChar)

/-- Does the text start with the pattern? -/
def headMatches : List Char → List Char → Bool
  | [], _ => true
  | _ :: _, [] => false
  | p :: ps, c :: cs => p == c && headMatches ps cs

/-- Does the pattern occur anywhere in the text? -/
def hasSubList (pat : List Char) : List Char → Bool
  | [] => headMatches pat []
  | c :: cs => headMatches pat (c :: cs) || hasSubList pat cs

/-- Python `pat in s` (substring membership). -/
def strContains (s pat : String) : Bool := hasSubList pat.data s.data

/-- Accumulating splitter for Python `s.split()` (whitespace runs, empty parts
dropped). -/
def wordsAux : List Char → List Char → List String
  | [], acc => if acc.isEmpty then [] else [String.mk acc.reverse]
  | c :: cs, acc =>
    if c.isWhitespace then
      (if acc.isEmpty then wordsAux cs []
       else String.mk acc.reverse :: wordsAux cs [])
    else wordsAux cs (c :: acc)

/-- Python `s.split()` with no argument. -/
def pyWords (s : String) : List String := wordsAux s.data []

/-- Split a character list on a separator character. -/
def splitOnChar (sep : Char) : List Char → List (List Char)
  | [] => [[]]
  | c :: cs =>
    let r := splitOnChar sep cs
    if c = sep then [] :: r
    else
      match r with
      | [] => [[c]]
      | w :: ws => (c :: w) :: ws

/-- Capitalize the first character of a word. -/
def capList : List Char → List Char
  | [] => []
  | c :: cs => upperChar c :: cs

/-- Python `s.title()` for the space-separated strings the code applies it to. -/
def pyTitle (s : String) : String :=
  String.mk (List.intercalate [' '] ((splitOnChar ' ' s.data).map capList))

/-! ### Association lists with Python-dict semantics -/

/-- Python `d[key]` / `d.get(key)`: first (and only, keys are unique) binding. -/
def alookup {α : Type} : List (String × α) → String → Option α
  | [], _ => none
  | (k, v) :: rest, key => if k = key then some v else alookup rest key

/-- Python `d[key] = v`: replace in place if present, else append. -/
def dinsert {α : Type} : List (String × α) → String → α → List (String × α)
  | [], key, v => [(key, v)]
  | (k, w) :: rest, key, v =>
    if k = key then (k, v) :: rest else (k, w) :: dinsert rest key v

/-- Python `a.update(b)`. -/
def dupdate {α : Type} (a b : List (String × α)) : List (String × α) :=
  b.foldl (fun acc kv => dinsert acc kv.1 kv.2) a

/-- The key list of a dict. -/
def dkeys {α : Type} (l : List (String × α)) : List String := l.map Prod.fst

/-! ### Sorting and grouping helpers -/

/-- Stable insertion of `x` into a `le`-sorted list (equal elements keep the
original relative order). -/
def insertBy {α : Type} (le : α → α → Bool) (x : α) : List α → List α
  | [] => [x]
  | y :: rest => if le x y then x :: y :: rest else y :: insertBy le x rest

/-- Stable insertion sort. -/
def sortBy {α : Type} (le : α → α → Bool) : List α → List α
  | [] => []
  | x :: rest => insertBy le x (sortBy le rest)

/-- Deduplicate keeping the first occurrence of each element. -/
def firstDedupAux {α : Type} [BEq α] : List α → List α → List α
  | [], _ => []
  | x :: rest, seen =>
    if seen.contains x then firstDedupAux rest seen
    else x :: firstDedupAux rest (x :: seen)

/-- Deduplicate keeping first occurrences, preserving order. -/
def firstDedup {α : Type} [BEq α] (l : List α) : List α := firstDedupAux l []

/-! ### Dates (pandas Timestamps at day granularity) -/

/-- A calendar date; the `Date` column of the workbook. -/
structure Date where
  year : Nat
  month : Nat
  day : Nat
deriving DecidableEq, Repr

/-- Lexicographic `≤` on dates. -/
def Date.leB (a b : Date) : Bool :=
  a.year < b.year ||
    (a.year = b.year &&
      (a.month < b.month || (a.month = b.month && a.day ≤ b.day)))

def isLeap (y : Nat) : Bool := y % 4 = 0 && (y % 100 ≠ 0 || y % 400 = 0)

def daysInMonth (y m : Nat) : Nat :=
  if m = 2 then (if isLeap y then 29 else 28)
  else if m = 4 || m = 6 || m = 9 || m = 11 then 30
  else 31

/-- pandas `d - DateOffset(months := n)`: month arithmetic with the day clamped
to the target month's length. -/
def Date.subMonths (d : Date) (n : Nat) : Date :=
  let t := d.year * 12 + (d.month - 1) - n
  let y := t / 12
  let m := t % 12 + 1
  { year := y, month := m, day := min d.day (daysInMonth y m) }

/-- pandas `d - DateOffset(years := n)`. -/
def Date.subYears (d : Date) (n : Nat) : Date := d.subMonths (n * 12)

/-- Zero-padded decimal rendering. -/
def padNum (width n : Nat) : String :=
  let s := toString n
  if s.length < width then String.mk (List.replicate (width - s.length) '0') ++ s
  else s

/-- `strftime("%Y-%m-%d")` on a valid Timestamp. -/
def Date.fmt (d : Date) : String :=
  padNum 4 d.year ++ "-" ++ padNum 2 d.month ++ "-" ++ padNum 2 d.day

/-- Minimum of a list of dates (`Series.min()`: `none` models `NaT`). -/
def dateMin : List Date → Option Date
  | [] => none
  | d :: rest => some (rest.foldl (fun a b => if Date.leB a b then a else b) d)

/-- Maximum of a list of dates (`Series.max()`: `none` models `NaT`). -/
def dateMax : List Date → Option Date
  | [] => none
  | d :: rest => some (rest.foldl (fun a b => if Date.leB a b then b else a) d)

/-- Index of the calendar quarter containing `d`, linear over years. -/
def Date.quarterIdx (d : Date) : Nat := d.year * 4 + (d.month - 1) / 3

/-- The quarter-end Timestamp that pandas `resample('Q')` uses as period label. -/
def quarterEnd (idx : Nat) : Date :=
  let y := idx / 4
  let m := idx % 4 * 3 + 3
  { year := y, month := m, day := daysInMonth y m }

/-! ### Python floats -/

/-- The float values produced by the pipeline: a rational, NaN, or ±infinity. -/
inductive RF where
  | nan : RF
  | inf : RF
  | ninf : RF
  | val : ℚ → RF
deriving DecidableEq, Repr

namespace RF

def neg : RF → RF
  | nan => nan
  | inf => ninf
  | ninf => inf
  | val q => val (-q)

def add : RF → RF → RF
  | nan, _ => nan
  | _, nan => nan
  | inf, ninf => nan
  | ninf, inf => nan
  | inf, _ => inf
  | _, inf => inf
  | ninf, _ => ninf
  | _, ninf => ninf
  | val a, val b => val (a + b)

def sub (a b : RF) : RF := a.add b.neg

def mul : RF → RF → RF
  | nan, _ => nan
  | _, nan => nan
  | inf, val b => if b = 0 then nan else if 0 < b then inf else ninf
  | val a, inf => if a = 0 then nan else if 0 < a then inf else ninf
  | ninf, val b => if b = 0 then nan else if 0 < b then ninf else inf
  | val a, ninf => if a = 0 then nan else if 0 < a then ninf else inf
  | inf, inf => inf
  | inf, ninf => ninf
  | ninf, inf => ninf
  | ninf, ninf => inf
  | val a, val b => val (a * b)

def div : RF → RF → RF
  | nan, _ => nan
  | _, nan => nan
  | inf, inf => nan
  | inf, ninf => nan
  | ninf, inf => nan
  | ninf, ninf => nan
  | inf, val b => if 0 ≤ b then inf else ninf
  | ninf, val b => if 0 ≤ b then ninf else inf
  | val _, inf => val 0
  | val _, ninf => val 0
  | val a, val b =>
    if b = 0 then (if a = 0 then nan else if 0 < a then inf else ninf)
    else val (a / b)

def rabs : RF → RF
  | nan => nan
  | inf => inf
  | ninf => inf
  | val q => val |q|

/-- IEEE `<` (NaN incomparable). -/
def ltB : RF → RF → Bool
  | nan, _ => false
  | _, nan => false
  | inf, _ => false
  | ninf, ninf => false
  | ninf, _ => true
  | val _, ninf => false
  | val _, inf => true
  | val a, val b => decide (a < b)

/-- pandas `Series.sum()` (our inputs never contain NaN at the call sites). -/
def sum (l : List RF) : RF := l.foldl add (val 0)

/-- pandas `Series.mean()`; on an empty series this is `0/0 = NaN`, as pandas
returns. -/
def mean (l : List RF) : RF := (sum l).div (val (l.length : ℚ))

/-- pandas `Series.max()` with the default `skipna`. -/
def maxSkip (l : List RF) : RF :=
  match l.filter (· ≠ nan) with
  | [] => nan
  | x :: rest => rest.foldl (fun a b => if ltB a b then b else a) x

/-- pandas `Series.min()` with the default `skipna`. -/
def minSkip (l : List RF) : RF :=
  match l.filter (· ≠ nan) with
  | [] => nan
  | x :: rest => rest.foldl (fun a b => if ltB b a then b else a) x

end RF

/-- A rational approximation of the float square root (6 fractional digits);
no theorem depends on its exact value, only on its type. -/
def ratSqrt (q : ℚ) : ℚ :=
  ((Nat.sqrt (q * 1000000000000).floor.toNat : ℚ)) / 1000000

namespace RF

def sqrtF : RF → RF
  | nan => nan
  | ninf => nan
  | inf => inf
  | val q => if q < 0 then nan else val (ratSqrt q)

/-- pandas `Series.std()`: the sample standard deviation, NaN when fewer than
two observations. -/
def stdSample (l : List RF) : RF :=
  if l.length < 2 then nan
  else
    let m := mean l
    ((sum (l.map (fun x => (x.sub m).mul (x.sub m)))).div
      (val ((l.length - 1 : Nat) : ℚ))).sqrtF

end RF

/-- Round-half-up to the nearest integer, written out over numerator and
denominator so concrete runs reduce inside the kernel
(`ratRound q = the floor of q + 1/2`). -/
def ratRound (q : ℚ) : ℤ := Int.fdiv (2 * q.num + (q.den : ℤ)) (2 * (q.den : ℤ))

/-- Rounding a rational to `places` decimal digits (model of Python/numpy
`round`; ties differ from banker's rounding only in direction, which no claim
depends on). -/
def roundQ (places : Nat) (q : ℚ) : ℚ :=
  ((ratRound (q * (10 ^ places : ℚ)) : ℤ) : ℚ) / (10 ^ places : ℚ)

namespace RF

/-- `round(x, places)`: NaN and infinities pass through. -/
def roundP (places : Nat) : RF → RF
  | nan => nan
  | inf => inf
  | ninf => ninf
  | val q => val (roundQ places q)

/-- The value is NaN, an infinity, or an integer multiple of `1/100` — the
footprint `round(·, 2)` leaves on a float. -/
def rounded2 : RF → Bool
  | val q => (q * 100).den == 1
  | _ => true

/-- The value is NaN, an infinity, or an integer — the footprint of
`round(·, 0)`. -/
def rounded0 : RF → Bool
  | val q => q.den == 1
  | _ => true

end RF

theorem roundQ_den (places : Nat) (q : ℚ) :
    (roundQ places q * (10 ^ places : ℚ)).den = 1 := by
  have h : (10 ^ places : ℚ) ≠ 0 := by positivity
  rw [roundQ, div_mul_cancel₀ _ h]
  exact Rat.den_intCast _

theorem rounded2_roundP (x : RF) : (RF.roundP 2 x).rounded2 = true := by
  cases x <;> simp [RF.roundP, RF.rounded2]
  · exact roundQ_den 2 _

theorem rounded0_roundP (x : RF) : (RF.roundP 0 x).rounded0 = true := by
  cases x <;> simp [RF.roundP, RF.rounded0]
  · have := roundQ_den 0 ‹ℚ›
    simpa using this

/-! ### Tabular data (the financial sample workbook) -/

/-- The columns of the workbook that the code reads. -/
inductive Col where
  | date | segment | country | product | profit | grossSales | cogs | unitsSold
deriving DecidableEq, Repr

/-- One row of the workbook. A field is meaningful only when its column is
listed in the owning `DF.cols`. -/
structure Row where
  date : Date := ⟨1970, 1, 1⟩
  segment : String := ""
  country : String := ""
  product : String := ""
  profit : ℚ := 0
  grossSales : ℚ := 0
  cogs : ℚ := 0
  unitsSold : ℚ := 0
deriving DecidableEq, Repr

/-- A pandas DataFrame over the workbook schema. -/
structure DF where
  cols : List Col
  rows : List Row
deriving DecidableEq, Repr

/-- The `{start, end}` mapping (the `end` key is named `stop` here). -/
structure DateRange where
  start : String
  stop : String
deriving DecidableEq, Repr

/-- The filter dict built by `DataFetcherAgent._extract_filters`. -/
structure Filters where
  segment : Option String := none
  country : Option String := none
  product : Option String := none
  quarters : Option Nat := none
  months : Option Nat := none
  years : Option Nat := none
deriving DecidableEq, Repr

/-- The summary-statistics dict of `_calculate_summary_stats`; a `none` field
models an absent key. -/
structure Stats where
  total_profit : Option RF := none
  avg_profit : Option RF := none
  profit_std : Option RF := none
  total_gross_sales : Option RF := none
  avg_gross_sales : Option RF := none
  total_cogs : Option RF := none
  avg_cogs : Option RF := none
  total_units_sold : Option RF := none
  avg_units_sold : Option RF := none
  date_range : DateRange := ⟨"N/A", "N/A"⟩
  segment_breakdown : Option (List (String × Nat)) := none
  country_breakdown : Option (List (String × Nat)) := none
deriving DecidableEq, Repr

/-- The fetcher's `result_data` dict. -/
structure FetchData where
  raw_data : List Row
  summary_stats : Stats
  filters_applied : Filters
  data_points : Nat
  columns : List Col
  date_range : DateRange
deriving DecidableEq, Repr

/-- A value of the analyzer's result mapping: a number, a string, a flat
numeric dict (quarter label to value), or a two-level dict (the `to_dict()`
of a grouped frame; the tuple column keys are rendered as strings). -/
inductive AVal where
  | num : RF → AVal
  | str : String → AVal
  | dictQ : List (String × RF) → AVal
  | dict2 : List (String × List (String × RF)) → AVal
deriving DecidableEq, Repr

/-- The analyzer's result mapping. -/
abbrev Analysis := List (String × AVal)

/-- A visualizer artifact: the base64-encoded Plotly payload is modelled by
the underlying named traces (display encoding is out of the spec's scope);
`msg` is the "Insufficient data" marker. -/
inductive ChartVal where
  | chart : String → List (String × List ℚ) → ChartVal
  | msg : String → ChartVal
deriving DecidableEq, Repr

abbrev VisData := List (String × ChartVal)

/-! ### Agents -/

/-- `AgentStatus` from base_agent.py. -/
inductive AgentStatus where
  | idle | working | completed | error | waiting
deriving DecidableEq, Repr

/-- The `data` payload of an `AgentResult`. -/
inductive Payload where
  | fetch : FetchData → Payload
  | analysis : Analysis → Payload
  | vis : VisData → Payload
  | text : String → Payload
deriving DecidableEq, Repr

/-- Python truthiness of a payload (the fetcher's dict always has six keys,
hence is always truthy). -/
def Payload.truthy : Payload → Bool
  | .fetch _ => true
  | .analysis m => !m.isEmpty
  | .vis v => !v.isEmpty
  | .text s => s != ""

/-- `AgentResult` from base_agent.py; `metadata` keys are counters. -/
structure AgentResult where
  agent_id : String
  status : AgentStatus
  data : Option Payload
  error : Option String := none
  metadata : Option (List (String × Nat)) := none
deriving DecidableEq, Repr

/-- The shared (and per-agent private) context, typed over the keys the code
reads and writes; caller-supplied keys outside this set live in `extra` so
dict truthiness is preserved. -/
structure SharedCtx where
  clarification_answers : Option (List (String × String)) := none
  financial_data : Option FetchData := none
  dataframe : Option DF := none
  analysis_results : Option Analysis := none
  visualizations : Option VisData := none
  summary : Option String := none
  extra : List (String × String) := []
deriving DecidableEq, Repr

/-- Python `a.update(b)` on two contexts: keys present in `b` win. -/
def SharedCtx.update (a b : SharedCtx) : SharedCtx where
  clarification_answers := b.clarification_answers <|> a.clarification_answers
  financial_data := b.financial_data <|> a.financial_data
  dataframe := b.dataframe <|> a.dataframe
  analysis_results := b.analysis_results <|> a.analysis_results
  visualizations := b.visualizations <|> a.visualizations
  summary := b.summary <|> a.summary
  extra := dupdate a.extra b.extra

/-- Python truthiness of the context dict (non-empty). -/
def SharedCtx.truthy (c : SharedCtx) : Bool :=
  c.clarification_answers.isSome || c.financial_data.isSome || c.dataframe.isSome ||
    c.analysis_results.isSome || c.visualizations.isSome || c.summary.isSome ||
    !c.extra.isEmpty

/-- Python `bool(context.get("clarification_answers"))`: present and non-empty. -/
def SharedCtx.answersTruthy (c : SharedCtx) : Bool :=
  match c.clarification_answers with
  | some l => !l.isEmpty
  | none => false

/-- The mutable per-agent state: `self.status`, `self.context`, `self.results`
of `BaseAgent`; it persists for the lifetime of the agent object. -/
structure AgentState where
  status : AgentStatus := .idle
  ctx : SharedCtx := {}
  results : List AgentResult := []
deriving DecidableEq, Repr

/-- `BaseAgent.store_result`: appends a result carrying the CURRENT status and
`metadata or an empty dict`. -/
def storeResult (st : AgentState) (agentId : String) (data : Option Payload)
    (metadata : Option (List (String × Nat))) : AgentState :=
  { st with results := st.results ++
      [{ agent_id := agentId, status := st.status, data := data,
         metadata := some (metadata.getD []) }] }

/-! ### Oracles for the external collaborators -/

/-- The JSON object a successful planning call parses into (absent keys take
the `plan_data.get` defaults). A malformed or failed call is the `.error`
outcome of `Env.planOutcome`. -/
structure PlanJson where
  agents_needed : List String := []
  execution_order : List String := []
  clarification_needed : Bool := false
  clarification_questions : List String := []
deriving DecidableEq, Repr

/-- One request's view of the external world: the workbook on disk and the
two reasoning-service calls (each call of one request sees the same outcome). -/
structure Env where
  excelExists : Bool := true
  excelData : DF := ⟨[], []⟩
  planOutcome : Except String PlanJson := .error "planning service unavailable"
  summaryOutcome : Except String String := .error "reasoning service unavailable"

/-! ### Fetcher worker (data_fetcher.py) -/

def excelFileName : String := "04-01-Financial Sample Data.xlsx"

def segmentsList : List String :=
  ["government", "midmarket", "midmarkets", "channel partners", "enterprise",
   "small business"]

def countriesList : List String :=
  ["canada", "germany", "france", "mexico", "usa", "united states"]

def productsList : List String :=
  ["carretera", "montana", "paseo", "vente", "amarilla", "touring"]

/-- First option occurring in the lowered task, `title()`-cased. -/
def findFirstIn (taskLower : String) (opts : List String) : Option String :=
  (opts.find? (fun o => strContains taskLower o)).map pyTitle

/-- `DataFetcherAgent._extract_filters` (its `context` argument is unused by
the source as well). -/
def extractFilters (task : String) (context : SharedCtx) : Filters :=
  let tl := pyLower task
  let base : Filters :=
    { segment := findFirstIn tl segmentsList,
      country := findFirstIn tl countriesList,
      product := findFirstIn tl productsList }
  if strContains tl "last" then
    if strContains tl "3" || strContains tl "three" then { base with quarters := some 3 }
    else if strContains tl "2" || strContains tl "two" then { base with quarters := some 2 }
    else if strContains tl "1" || strContains tl "one" then { base with quarters := some 1 }
    else if strContains tl "month" then { base with months := some 1 }
    else if strContains tl "year" then { base with years := some 1 }
    else base
  else base

/-- Keep the rows within `months` months of the latest date present
(comparisons against a NaT maximum are all `False`, giving the empty set). -/
def dateWindow (rows : List Row) (months : Nat) : List Row :=
  match dateMax (rows.map Row.date) with
  | none => []
  | some latest => rows.filter fun r => Date.leB (latest.subMonths months) r.date

def dateWindowYears (rows : List Row) (years : Nat) : List Row :=
  match dateMax (rows.map Row.date) with
  | none => []
  | some latest => rows.filter fun r => Date.leB (latest.subYears years) r.date

/-- `DataFetcherAgent._apply_filters`; filtering on a column the frame lacks
raises a `KeyError`. -/
def applyFilters (df : DF) (f : Filters) : Except String DF := do
  let step1 ←
    match f.segment with
    | none => pure df.rows
    | some s =>
      if Col.segment ∈ df.cols then
        pure (df.rows.filter fun r => strContains (pyLower r.segment) (pyLower s))
      else throw "'Segment'"
  let step2 ←
    match f.country with
    | none => pure step1
    | some s =>
      if Col.country ∈ df.cols then
        pure (step1.filter fun r => strContains (pyLower r.country) (pyLower s))
      else throw "'Country'"
  let step3 ←
    match f.product with
    | none => pure step2
    | some s =>
      if Col.product ∈ df.cols then
        pure (step2.filter fun r => strContains (pyLower r.product) (pyLower s))
      else throw "'Product'"
  let step4 :=
    if Col.date ∈ df.cols then
      match f.quarters, f.months, f.years with
      | some q, _, _ => dateWindow step3 (q * 3)
      | none, some m, _ => dateWindow step3 m
      | none, none, some y => dateWindowYears step3 y
      | none, none, none => step3
    else step3
  pure { df with rows := step4 }

/-- pandas `Series.value_counts().to_dict()`: counts per distinct value,
sorted by descending count (stably, first occurrence first). -/
def valueCounts (l : List String) : List (String × Nat) :=
  sortBy (fun a b => Nat.ble b.2 a.2) ((firstDedup l).map fun k => (k, l.count k))

/-- `DataFetcherAgent._calculate_summary_stats`. On a frame with a `Date`
column but no rows, `df["Date"].min()` is NaT and `NaT.strftime` raises
`ValueError("NaTType does not support strftime")`. -/
def calculateSummaryStats (df : DF) : Except String Stats := do
  let profits := df.rows.map fun r => RF.val r.profit
  let s1 : Stats :=
    if Col.profit ∈ df.cols then
      { total_profit := some (RF.sum profits), avg_profit := some (RF.mean profits),
        profit_std := some (RF.stdSample profits) }
    else {}
  let gss := df.rows.map fun r => RF.val r.grossSales
  let s2 :=
    if Col.grossSales ∈ df.cols then
      { s1 with total_gross_sales := some (RF.sum gss),
                avg_gross_sales := some (RF.mean gss) }
    else s1
  let cogss := df.rows.map fun r => RF.val r.cogs
  let s3 :=
    if Col.cogs ∈ df.cols then
      { s2 with total_cogs := some (RF.sum cogss), avg_cogs := some (RF.mean cogss) }
    else s2
  let units := df.rows.map fun r => RF.val r.unitsSold
  let s4 :=
    if Col.unitsSold ∈ df.cols then
      { s3 with total_units_sold := some (RF.sum units),
                avg_units_sold := some (RF.mean units) }
    else s3
  let dr ←
    if Col.date ∈ df.cols then
      match dateMin (df.rows.map Row.date), dateMax (df.rows.map Row.date) with
      | some a, some b => pure (DateRange.mk a.fmt b.fmt)
      | _, _ => throw "NaTType does not support strftime"
    else pure (DateRange.mk "N/A" "N/A")
  let s5 := { s4 with date_range := dr }
  let s6 :=
    if Col.segment ∈ df.cols then
      { s5 with segment_breakdown := some (valueCounts (df.rows.map Row.segment)) }
    else s5
  let s7 :=
    if Col.country ∈ df.cols then
      { s6 with country_breakdown := some (valueCounts (df.rows.map Row.country)) }
    else s6
  pure s7

/-- `DataFetcherAgent._get_date_range` (this one guards against emptiness). -/
def getDateRange (df : DF) : DateRange :=
  if Col.date ∈ df.cols && !df.rows.isEmpty then
    match dateMin (df.rows.map Row.date), dateMax (df.rows.map Row.date) with
    | some a, some b => ⟨a.fmt, b.fmt⟩
    | _, _ => ⟨"N/A", "N/A"⟩
  else ⟨"N/A", "N/A"⟩

/-- Stable ascending sort by the `Date` column (the sort-key order is total,
so the sorting algorithm's tie behaviour is unobservable to the claims). -/
def sortRowsByDate (rows : List Row) : List Row :=
  sortBy (fun a b => Date.leB a.date b.date) rows

/-- The body of the fetcher's `try` block; returns the `result_data` dict and
the filtered frame it stores under `dataframe`. -/
def fetcherBody (env : Env) (task : String) (context : SharedCtx) :
    Except String (FetchData × DF) := do
  if !env.excelExists then
    throw ("Excel file " ++ excelFileName ++ " not found")
  let filters := extractFilters task context
  let fdf ← applyFilters env.excelData filters
  let fdf :=
    if Col.date ∈ fdf.cols then { fdf with rows := sortRowsByDate fdf.rows } else fdf
  let stats ← calculateSummaryStats fdf
  pure ({ raw_data := fdf.rows, summary_stats := stats, filters_applied := filters,
          data_points := fdf.rows.length, columns := fdf.cols,
          date_range := getDateRange fdf }, fdf)

/-- `DataFetcherAgent.execute`. -/
def fetcherExecute (env : Env) (task : String) (shared : SharedCtx)
    (st : AgentState) : AgentResult × AgentState :=
  let st1 := { st with status := AgentStatus.working }
  match fetcherBody env task shared with
  | .ok (fd, fdf) =>
    let st2 := { st1 with
      ctx := { st1.ctx with financial_data := some fd, dataframe := some fdf },
      status := .completed }
    let st3 := storeResult st2 "data_fetcher" (some (.fetch fd))
      (some [("data_points", fd.data_points)])
    ({ agent_id := "data_fetcher", status := .completed, data := some (.fetch fd),
       error := none, metadata := some [("data_points", fd.data_points)] }, st3)
  | .error e =>
    ({ agent_id := "data_fetcher", status := .error, data := none, error := some e },
     { st1 with status := .error })

/-! ### Analyzer worker (analyzer.py) -/

/-- `pd.DataFrame(records)`: an empty record list yields a frame with no
columns. -/
def dfFromRecords (cols : List Col) (rows : List Row) : DF :=
  if rows.isEmpty then ⟨[], []⟩ else ⟨cols, rows⟩

/-- First-versus-last comparison of a profit series: direction and percent
change (division guarded to yield 0). -/
def trendOf (l : List ℚ) : String × ℚ :=
  if 2 ≤ l.length then
    let a := l.headD 0
    let b := l.getLastD 0
    (if a < b then "upward" else "downward",
     if a ≠ 0 then ((b - a) / |a|) * 100 else 0)
  else ("stable", 0)

/-- `groupby('Date')['Profit'].sum().sort_index()`: per-date sums in ascending
date order. -/
def dailyProfitSums (rows : List Row) : List ℚ :=
  (sortBy Date.leB (firstDedup (rows.map Row.date))).map fun d =>
    ((rows.filter (fun r => r.date = d)).map Row.profit).sum

/-- `AnalyzerAgent._analyze_trends`: note that `total_profit` and
`avg_daily_profit` are emitted without rounding. -/
def analyzeTrends (df : DF) : Analysis :=
  if Col.profit ∉ df.cols then []
  else
    let pvals := df.rows.map Row.profit
    let tc :=
      if Col.date ∈ df.cols then trendOf (dailyProfitSums df.rows) else trendOf pvals
    [("trend_direction", .str tc.1),
     ("profit_change_percent", .num (RF.roundP 2 (RF.val tc.2))),
     ("total_profit", .num (RF.val pvals.sum)),
     ("avg_daily_profit", .num (RF.mean (pvals.map RF.val)))]

/-- The quarter indices spanned by the frame, including empty intermediate
quarters, as `resample('Q')` produces. -/
def quartersOf (df : DF) : List Nat :=
  match df.rows.map (fun r => r.date.quarterIdx) with
  | [] => []
  | q :: qs =>
    let lo := qs.foldl min q
    let hi := qs.foldl max q
    (List.range (hi + 1 - lo)).map (fun i => lo + i)

/-- Per-quarter profit sums (an empty quarter sums to 0). -/
def quarterProfitSums (df : DF) : List (Nat × ℚ) :=
  (quartersOf df).map fun qi =>
    (qi, ((df.rows.filter (fun r => r.date.quarterIdx = qi)).map Row.profit).sum)

/-- `pct_change().dropna()`: consecutive relative changes, NaN entries (the
leading one and any 0/0) removed, infinities kept; each paired with the
quarter it belongs to. -/
def pctChanges (qp : List (Nat × ℚ)) : List (Nat × RF) :=
  ((qp.zip (qp.drop 1)).map fun pc =>
      (pc.2.1, (RF.sub (RF.val pc.2.2) (RF.val pc.1.2)).div (RF.val pc.1.2))).filter
    (fun x => x.2 ≠ RF.nan)

/-- `AnalyzerAgent._analyze_quarters`; aggregating a column the frame lacks
raises a `KeyError` (per the agg dict order). -/
def analyzeQuarters (df : DF) : Except String Analysis :=
  if Col.date ∉ df.cols ∨ Col.profit ∉ df.cols then .ok []
  else if Col.grossSales ∉ df.cols then .error "'Gross Sales'"
  else if Col.unitsSold ∉ df.cols then .error "'Units Sold'"
  else if Col.cogs ∉ df.cols then .error "'COGS'"
  else if (quarterProfitSums df).length < 2 then
    .ok [("quarterly_analysis", .str "Insufficient data for quarterly analysis")]
  else
    let qProfit := quarterProfitSums df
    let changes := (pctChanges qProfit).map fun x => (x.1, x.2.mul (RF.val 100))
    let vals := changes.map Prod.snd
    let last3 := vals.drop (vals.length - 3)
    .ok
      [("quarterly_profit", .dictQ (qProfit.map fun p => ((quarterEnd p.1).fmt, RF.val p.2))),
       ("quarterly_profit_changes", .dictQ (changes.map fun p => ((quarterEnd p.1).fmt, p.2))),
       ("last_3_quarters_avg_change", .num (RF.roundP 2 (RF.mean last3))),
       ("quarterly_volatility", .num (RF.roundP 2 (RF.stdSample vals))),
       ("best_quarter", .num (RF.roundP 2 (RF.maxSkip vals))),
       ("worst_quarter", .num (RF.roundP 2 (RF.minSkip vals)))]

/-- `AnalyzerAgent._analyze_performance`: note that `profit_per_unit` is
emitted without rounding. -/
def analyzePerformance (df : DF) : Analysis :=
  if Col.profit ∉ df.cols then []
  else
    let profits := df.rows.map fun r => RF.val r.profit
    let total := RF.sum profits
    let gsSum : ℚ := (df.rows.map Row.grossSales).sum
    let usSum : ℚ := (df.rows.map Row.unitsSold).sum
    let margin : RF :=
      if Col.grossSales ∈ df.cols && decide (0 < gsSum) then
        (total.div (RF.val gsSum)).mul (RF.val 100)
      else RF.val 0
    let eff : Analysis :=
      if Col.unitsSold ∈ df.cols then
        [("profit_per_unit",
          .num (if 0 < usSum then total.div (RF.val usSum) else RF.val 0))]
      else []
    [("total_profit", .num (RF.roundP 2 total)),
     ("avg_profit", .num (RF.roundP 2 (RF.mean profits))),
     ("profit_std", .num (RF.roundP 2 (RF.stdSample profits))),
     ("profit_margin_percent", .num (RF.roundP 2 margin))] ++ eff

/-- `Series.idxmax()`: key of the first maximal value. -/
def idxmaxBy (l : List (String × RF)) : String :=
  match l with
  | [] => ""
  | x :: rest => (rest.foldl (fun acc p => if RF.ltB acc.2 p.2 then p else acc) x).1

/-- `Series.idxmin()`: key of the first minimal value. -/
def idxminBy (l : List (String × RF)) : String :=
  match l with
  | [] => ""
  | x :: rest => (rest.foldl (fun acc p => if RF.ltB p.2 acc.2 then p else acc) x).1

/-- The shared body of `_analyze_segments`, `_analyze_countries` and
`_analyze_products` (textually identical in the source up to the dimension):
group by the dimension, aggregate, round the frame to 2 decimals, add a margin
column computed from the rounded sums, and report best/worst group. -/
def analyzeByDim (df : DF) (dimCol : Col) (keyOf : Row → String)
    (perfKey bestKey worstKey : String) : Except String Analysis :=
  if dimCol ∉ df.cols ∨ Col.profit ∉ df.cols then .ok []
  else if Col.grossSales ∉ df.cols then .error "'Gross Sales'"
  else if Col.unitsSold ∉ df.cols then .error "'Units Sold'"
  else
    let gs := sortBy (fun a b => decide (a ≤ b)) (firstDedup (df.rows.map keyOf))
    let grp := fun g => df.rows.filter (fun r => keyOf r = g)
    let psum := gs.map fun g =>
      (g, RF.roundP 2 (RF.sum ((grp g).map fun r => RF.val r.profit)))
    let pmean := gs.map fun g =>
      (g, RF.roundP 2 (RF.mean ((grp g).map fun r => RF.val r.profit)))
    let pcount := gs.map fun g => (g, RF.roundP 2 (RF.val ((grp g).length : ℚ)))
    let gssum := gs.map fun g =>
      (g, RF.roundP 2 (RF.sum ((grp g).map fun r => RF.val r.grossSales)))
    let ussum := gs.map fun g =>
      (g, RF.roundP 2 (RF.sum ((grp g).map fun r => RF.val r.unitsSold)))
    let margin := (psum.zip gssum).map fun pg =>
      (pg.1.1, RF.roundP 2 ((pg.1.2.div pg.2.2).mul (RF.val 100)))
    .ok
      [(perfKey, .dict2
          [("('Profit', 'sum')", psum), ("('Profit', 'mean')", pmean),
           ("('Profit', 'count')", pcount), ("('Gross Sales', 'sum')", gssum),
           ("('Units Sold', 'sum')", ussum), ("Profit_Margin", margin)]),
       (bestKey, .str (idxmaxBy psum)),
       (worstKey, .str (idxminBy psum))]

/-- `AnalyzerAgent._calculate_basic_metrics`. -/
def calculateBasicMetrics (df : DF) : Analysis :=
  let profits := df.rows.map fun r => RF.val r.profit
  let sales := df.rows.map fun r => RF.val r.grossSales
  let units := df.rows.map fun r => RF.val r.unitsSold
  let cogss := df.rows.map fun r => RF.val r.cogs
  (if Col.profit ∈ df.cols then
    [("total_profit", AVal.num (RF.roundP 2 (RF.sum profits))),
     ("max_profit", AVal.num (RF.roundP 2 (RF.maxSkip profits))),
     ("min_profit", AVal.num (RF.roundP 2 (RF.minSkip profits))),
     ("avg_profit", AVal.num (RF.roundP 2 (RF.mean profits)))]
   else []) ++
  (if Col.grossSales ∈ df.cols then
    [("total_sales", AVal.num (RF.roundP 2 (RF.sum sales))),
     ("avg_sales", AVal.num (RF.roundP 2 (RF.mean sales)))]
   else []) ++
  (if Col.unitsSold ∈ df.cols then
    [("total_units", AVal.num (RF.roundP 0 (RF.sum units))),
     ("avg_units", AVal.num (RF.roundP 2 (RF.mean units)))]
   else []) ++
  (if Col.cogs ∈ df.cols then
    [("total_cogs", AVal.num (RF.roundP 2 (RF.sum cogss))),
     ("avg_cogs", AVal.num (RF.roundP 2 (RF.mean cogss)))]
   else [])

/-- The keyword-gated sub-analysis results of `AnalyzerAgent.execute`, in the
order the source computes them; a condition that does not fire contributes the
empty dict (updating with an empty dict is a no-op, so folding these with
`dupdate` is exactly the source's sequence of conditional
`analysis_results.update(...)` calls). The fallible sub-analyses keep their
source order, so the first raising one wins, as in Python. -/
def analyzerPieces (df : DF) (tl : String) : Except String (List Analysis) :=
  (if strContains tl "quarter" then analyzeQuarters df else .ok []).bind fun p2 =>
  (if strContains tl "segment" then
      analyzeByDim df Col.segment Row.segment
        "segment_performance" "best_segment" "worst_segment"
    else .ok []).bind fun p4 =>
  (if strContains tl "country" then
      analyzeByDim df Col.country Row.country
        "country_performance" "best_country" "worst_country"
    else .ok []).bind fun p5 =>
  (if strContains tl "product" then
      analyzeByDim df Col.product Row.product
        "product_performance" "best_product" "worst_product"
    else .ok []).bind fun p6 =>
  .ok [if strContains tl "trend" then analyzeTrends df else [],
       p2,
       if strContains tl "performance" || strContains tl "profit" then
         analyzePerformance df
       else [],
       p4, p5, p6, calculateBasicMetrics df]

/-- The final `analysis_results` dict: the conditional updates folded in
source order (the always-run basic metrics last). -/
def analyzerMapping (df : DF) (tl : String) : Except String Analysis :=
  (analyzerPieces df tl).map (fun ps => ps.foldl dupdate [])

/-- The financial-data read shared by the analyzer and the visualizer: the
private context first, then the call context when it is truthy. -/
def ctxFinancialData (shared priv : SharedCtx) : Option FetchData :=
  match priv.financial_data with
  | some f => some f
  | none => if shared.truthy then shared.financial_data else none

/-- The body of the analyzer's `try` block. -/
def analyzerBody (task : String) (shared priv : SharedCtx) : Except String Analysis :=
  match ctxFinancialData shared priv with
  | none => .error "No financial data available for analysis"
  | some fd =>
    let df := dfFromRecords fd.columns fd.raw_data
    if df.rows.isEmpty then .error "No data available for analysis"
    else
      let df2 :=
        if Col.date ∈ df.cols then { df with rows := sortRowsByDate df.rows } else df
      analyzerMapping df2 (pyLower task)

/-- `AnalyzerAgent.execute`. -/
def analyzerExecute (env : Env) (task : String) (shared : SharedCtx)
    (st : AgentState) : AgentResult × AgentState :=
  let st1 := { st with status := AgentStatus.working }
  match analyzerBody task shared st1.ctx with
  | .ok m =>
    let ctx2 := { st1.ctx with analysis_results := some m }
    let st2 := { st1 with ctx := ctx2, status := AgentStatus.completed }
    let st3 := storeResult st2 "analyzer" (some (.analysis m)) none
    ({ agent_id := "analyzer", status := .completed, data := some (.analysis m),
       error := none, metadata := some [("metrics_calculated", m.length)] }, st3)
  | .error e =>
    ({ agent_id := "analyzer", status := .error, data := none, error := some e },
     { st1 with status := .error })

/-! ### Visualizer worker (visualizer.py)

`execute` moves the `Date` column into the index (`set_index`), after which
`'Date' in df.columns` is `False` in every chart helper; the date-indexed
branches of the chart builders (including the `analysis_results.get` call in
`_create_trend_chart`) are therefore unreachable, and only the positional
branches are modelled. -/

/-- `_create_price_chart` (positional branch). -/
def priceChart (cols : List Col) (rows : List Row) : VisData :=
  if Col.profit ∉ cols then []
  else
    [("profit_chart", .chart "Profit Trend Chart" [("Profit", rows.map Row.profit)])]

/-- `_create_quarterly_chart`; its `Date`-column guard always fails after
`set_index`, so the quarterly body below is dead at the call site but kept
faithful. -/
def quarterlyChartV (cols : List Col) (rows : List Row) : Except String VisData := do
  if Col.profit ∉ cols || Col.date ∉ cols then return []
  if Col.grossSales ∉ cols then throw "'Gross Sales'"
  if Col.unitsSold ∉ cols then throw "'Units Sold'"
  let qProfit := quarterProfitSums ⟨cols, rows⟩
  if qProfit.length < 2 then
    return [("quarterly_chart", .msg "Insufficient data for quarterly chart")]
  let changes := (pctChanges qProfit).map fun x => (x.2.mul (RF.val 100))
  let changesQ := changes.map fun c => match c with | RF.val q => q | _ => 0
  return [("quarterly_chart",
    .chart "Quarterly Profit Changes" [("Quarterly Profit Change (%)", changesQ)])]

/-- `_create_volume_chart` (positional branch): the unguarded `df['Profit']`
access raises a `KeyError` when the profit column is absent. -/
def volumeChartV (cols : List Col) (rows : List Row) : Except String VisData := do
  if Col.unitsSold ∉ cols then return []
  if Col.profit ∉ cols then throw "'Profit'"
  return [("units_chart", .chart "Profit and Units Sold Chart"
    [("Profit", rows.map Row.profit), ("Units Sold", rows.map Row.unitsSold)])]

/-- `_create_trend_chart` (positional branch). -/
def trendChartV (cols : List Col) (rows : List Row) : VisData :=
  if Col.profit ∉ cols then []
  else
    [("trend_chart", .chart "Profit Trend Analysis" [("Profit", rows.map Row.profit)])]

/-- The body of the visualizer's `try` block. -/
def visualizerBody (task : String) (shared priv : SharedCtx) : Except String VisData := do
  match ctxFinancialData shared priv with
  | none => throw "No financial data available for visualization"
  | some fd => do
    if fd.raw_data.isEmpty then throw "No data available for visualization"
    let cols :=
      if Col.date ∈ fd.columns then fd.columns.erase Col.date else fd.columns
    let rows := fd.raw_data
    let tl := pyLower task
    let v1 :=
      if strContains tl "chart" || strContains tl "plot" then
        dupdate [] (priceChart cols rows)
      else []
    let v2 ←
      if strContains tl "quarter" then do
        let q ← quarterlyChartV cols rows
        pure (dupdate v1 q)
      else pure v1
    let v3 ←
      if strContains tl "volume" then do
        let q ← volumeChartV cols rows
        pure (dupdate v2 q)
      else pure v2
    let v4 := if strContains tl "trend" then dupdate v3 (trendChartV cols rows) else v3
    pure (if v4.isEmpty then dupdate v4 (priceChart cols rows) else v4)

/-- `VisualizerAgent.execute`. -/
def visualizerExecute (env : Env) (task : String) (shared : SharedCtx)
    (st : AgentState) : AgentResult × AgentState :=
  let st1 := { st with status := AgentStatus.working }
  match visualizerBody task shared st1.ctx with
  | .ok v =>
    let ctx2 := { st1.ctx with visualizations := some v }
    let st2 := { st1 with ctx := ctx2, status := AgentStatus.completed }
    let st3 := storeResult st2 "visualizer" (some (.vis v)) none
    ({ agent_id := "visualizer", status := .completed, data := some (.vis v),
       error := none, metadata := some [("charts_created", v.length)] }, st3)
  | .error e =>
    ({ agent_id := "visualizer", status := .error, data := none, error := some e },
     { st1 with status := .error })

/-! ### Summarizer worker (summarizer.py) -/

/-- The structured digest of `_prepare_summary_data`. The fetcher's dict has
no `symbol`, `period`, `company_info` or `financials` keys, so those `get`
calls always take their defaults. -/
structure SummaryDigest where
  symbol : String
  period : String
  data_points : Nat
  analysis : Analysis
  visualizations : List String
  has_financials : Bool
deriving DecidableEq, Repr

def prepareSummaryData (fd : FetchData) (ar : Option Analysis)
    (vis : Option VisData) : SummaryDigest where
  symbol := "Unknown"
  period := "Unknown"
  data_points := fd.data_points
  analysis := match ar with
    | some m => if m.isEmpty then [] else m
    | none => []
  visualizations := match vis with
    | some v => if v.isEmpty then [] else v.map Prod.fst
    | none => []
  has_financials := false

/-- Float/value rendering for the plain-text report (a rational stands in for
Python's float formatting; nothing proved depends on digits). -/
def rfRender : RF → String
  | RF.nan => "nan"
  | RF.inf => "inf"
  | RF.ninf => "-inf"
  | RF.val q => toString q

def formatAVal : AVal → String
  | .num r => rfRender r
  | .str s => s
  | .dictQ m => toString m.length ++ " items"
  | .dict2 m => toString m.length ++ " items"

/-- `key.replace('_', ' ').title()`. -/
def titleKey (k : String) : String :=
  pyTitle (String.mk (k.data.map fun c => if c = '_' then ' ' else c))

/-- `SummarizerAgent._format_analysis_results`. -/
def formatAnalysisResults (analysis : Analysis) : String :=
  if analysis.isEmpty then "No analysis results available"
  else
    String.intercalate "\n"
      (analysis.map fun kv => titleKey kv.1 ++ ": " ++ formatAVal kv.2)

/-- `SummarizerAgent._create_fallback_summary`: the deterministic templated
summary built only from the digest. -/
def createFallbackSummary (d : SummaryDigest) : String :=
  "\n        Financial Analysis Summary for " ++ d.symbol ++
    "\n        =====================================\n        \n        Period Analyzed: " ++
    d.period ++ "\n        Data Points: " ++ toString d.data_points ++
    "\n        \n        Analysis Results:\n        " ++
    formatAnalysisResults d.analysis ++
    "\n        \n        Note: This is a basic summary. For detailed analysis, please ensure the LLM service is available.\n        "

/-- `SummarizerAgent._generate_summary`: the reasoning-service call, falling
back to the deterministic template when it fails. -/
def generateSummary (env : Env) (task : String) (d : SummaryDigest) : String :=
  match env.summaryOutcome with
  | .ok s => s
  | .error _ => createFallbackSummary d

/-- The three context reads of the summarizer (all three fall back to the call
context exactly when `financial_data` is missing privately and the call
context is truthy). -/
def summarizerInputs (shared priv : SharedCtx) :
    Option FetchData × Option Analysis × Option VisData :=
  if priv.financial_data.isNone && shared.truthy then
    (shared.financial_data, shared.analysis_results, shared.visualizations)
  else (priv.financial_data, priv.analysis_results, priv.visualizations)

/-- `SummarizerAgent.execute`. -/
def summarizerExecute (env : Env) (task : String) (shared : SharedCtx)
    (st : AgentState) : AgentResult × AgentState :=
  let st1 := { st with status := AgentStatus.working }
  match summarizerInputs shared st1.ctx with
  | (none, _, _) =>
    ({ agent_id := "summarizer", status := .error, data := none,
       error := some "No financial data available for summarization" },
     { st1 with status := .error })
  | (some fd, ar, vis) =>
    let digest := prepareSummaryData fd ar vis
    let summary := generateSummary env task digest
    let ctx2 := { st1.ctx with summary := some summary }
    let st2 := { st1 with ctx := ctx2, status := AgentStatus.completed }
    let st3 := storeResult st2 "summarizer" (some (.text summary)) none
    ({ agent_id := "summarizer", status := .completed, data := some (.text summary),
       error := none, metadata := some [("summary_length", summary.length)] }, st3)

/-! ### Task plans and the Planner (orchestrator.py) -/

/-- `TaskPlan` from orchestrator.py (`clarification_questions` defaults to the
empty list; both constructors of the source populate it). -/
structure TaskPlan where
  task : String
  agents_needed : List String
  execution_order : List String
  context : SharedCtx
  clarification_needed : Bool := false
  clarification_questions : List String := []
deriving DecidableEq, Repr

def defaultOrder : List String := ["data_fetcher", "analyzer", "visualizer", "summarizer"]

def vaguePhrases : List String :=
  ["help me", "what should i do", "i need information", "can you help",
   "tell me something", "what's going on", "i want to know", "show me something",
   "give me data", "i need help", "analyze data", "show trends",
   "compare performance", "show me", "give me", "tell me", "what is", "how do",
   "can you"]

/-- The fallback planner's vagueness test: a phrase hit on the lowered task, or
at most three whitespace-separated words. -/
def isVague (task : String) : Bool :=
  vaguePhrases.any (fun p => strContains (pyLower task) p) ||
    Nat.ble (pyWords task).length 3

def fixedClarificationQuestions : List String :=
  ["What specific financial data would you like me to analyze?",
   "What time period are you interested in? (e.g., last quarter, last year)",
   "What type of analysis do you need? (e.g., trends, comparisons, summaries)",
   "Do you want charts, tables, or reports?"]

def fetchKeywords : List String := ["fetch", "get", "data", "download"]
def analyzeKeywords : List String := ["analyze", "analysis", "trend", "calculate"]
def visualizeKeywords : List String := ["chart", "graph", "plot", "visualize"]
def summarizeKeywords : List String := ["summarize", "summary", "report", "conclusion"]

def hasAny (tl : String) (ws : List String) : Bool := ws.any (fun w => strContains tl w)

/-- `MultiAgentOrchestrator._create_fallback_plan`. -/
def createFallbackPlan (task : String) (context : SharedCtx) : TaskPlan :=
  let clarificationNeeded := !context.answersTruthy
  if clarificationNeeded && isVague task then
    { task := task, agents_needed := [], execution_order := [], context := context,
      clarification_needed := true,
      clarification_questions := fixedClarificationQuestions }
  else
    let tl := pyLower task
    let agents :=
      (if hasAny tl fetchKeywords then ["data_fetcher"] else []) ++
        (if hasAny tl analyzeKeywords then ["analyzer"] else []) ++
        (if hasAny tl visualizeKeywords then ["visualizer"] else []) ++
        (if hasAny tl summarizeKeywords then ["summarizer"] else [])
    let agents := if agents.isEmpty then defaultOrder else agents
    { task := task, agents_needed := agents, execution_order := agents,
      context := context, clarification_needed := false }

/-- `MultiAgentOrchestrator._plan_task`: a successful reasoning-service call
that parses yields the parsed plan; any failure (call or parse) falls back to
the deterministic planner. -/
def planTask (env : Env) (task : String) (context : SharedCtx) : TaskPlan :=
  match env.planOutcome with
  | .ok j =>
    { task := task, agents_needed := j.agents_needed,
      execution_order := j.execution_order, context := context,
      clarification_needed := j.clarification_needed,
      clarification_questions := j.clarification_questions }
  | .error _ => createFallbackPlan task context

/-! ### Executor (orchestrator.py `_execute_plan`) -/

/-- A worker as the Executor sees it: a call that mutates the agent's own
state and either returns a Result or raises. The four concrete workers never
raise (each catches internally), but the Executor guards against it. -/
structure Agent where
  execute : String → SharedCtx → AgentState → (Except String AgentResult) × AgentState

/-- The Result the Executor fabricates when a worker raises. -/
def faultResult (agentId msg : String) : AgentResult :=
  { agent_id := agentId, status := .error, data := none, error := some msg }

/-- `_execute_plan`'s loop: skip unregistered ids; run each registered worker;
on a normal return record the Result and merge the worker's private context
into the shared context before the next worker; on a raise record a fabricated
Error Result and leave the shared context unmerged. -/
def execPlan (reg : List (String × Agent)) (task : String) :
    List String → SharedCtx → List (String × AgentState) →
    List (String × AgentResult) →
    List (String × AgentResult) × SharedCtx × List (String × AgentState)
  | [], shared, states, acc => (acc, shared, states)
  | agentId :: rest, shared, states, acc =>
    match alookup reg agentId with
    | none => execPlan reg task rest shared states acc
    | some ag =>
      let stIn := (alookup states agentId).getD {}
      let p := ag.execute task shared stIn
      let states2 := dinsert states agentId p.2
      match p.1 with
      | .ok r =>
        execPlan reg task rest (shared.update p.2.ctx) states2 (dinsert acc agentId r)
      | .error e =>
        execPlan reg task rest shared states2 (dinsert acc agentId (faultResult agentId e))

/-- The registry built by `_initialize_agents`. -/
def mkAgents (env : Env) : List (String × Agent) :=
  [("data_fetcher", ⟨fun t sh st => let p := fetcherExecute env t sh st; (.ok p.1, p.2)⟩),
   ("analyzer", ⟨fun t sh st => let p := analyzerExecute env t sh st; (.ok p.1, p.2)⟩),
   ("visualizer", ⟨fun t sh st => let p := visualizerExecute env t sh st; (.ok p.1, p.2)⟩),
   ("summarizer", ⟨fun t sh st => let p := summarizerExecute env t sh st; (.ok p.1, p.2)⟩)]

/-! ### Aggregator (orchestrator.py `_aggregate_results`) -/

/-- The `status = "completed"` response envelope. `none` in an extraction
field stands for that field's default (`None` for `summary`, the empty dict
for the other three). -/
structure CompletedEnv where
  task : String
  summary : Option Payload
  analysis : Option Payload
  visualizations : Option Payload
  financial_data : Option Payload
  successful_agents : List String
  failed_agents : List String
  agent_status : List (String × AgentStatus)
  total_agents : Nat
  successful_count : Nat
  failed_count : Nat
deriving DecidableEq, Repr

/-- The response envelopes the orchestrator can return, tagged by their
`status` field (`noClarification` is `handle_clarification`'s bare
`{"error": ...}` dict). -/
inductive Envelope where
  | clarification : List String → String → Envelope
  | errorEnv : String → String → Envelope
  | done : CompletedEnv → Envelope
  | noClarification : String → Envelope
deriving DecidableEq, Repr

/-- `if result.data:` — the payload, when truthy. -/
def truthyData (r : AgentResult) : Option Payload :=
  match r.data with
  | some p => if p.truthy then some p else none
  | none => none

/-- The `successful_results` dict comprehension of `_aggregate_results`. -/
def successfulOf (results : List (String × AgentResult)) : List (String × AgentResult) :=
  results.filter fun kv => kv.2.status == AgentStatus.completed

/-- The `failed_results` dict comprehension of `_aggregate_results`. -/
def failedOf (results : List (String × AgentResult)) : List (String × AgentResult) :=
  results.filter fun kv => kv.2.status == AgentStatus.error

/-- `_aggregate_results`. -/
def aggregateResults (results : List (String × AgentResult)) (plan : TaskPlan) :
    Envelope :=
  let successes := successfulOf results
  let failures := failedOf results
  Envelope.done
    { task := plan.task,
      summary := (alookup successes "summarizer").bind truthyData,
      analysis := (alookup successes "analyzer").bind truthyData,
      visualizations := (alookup successes "visualizer").bind truthyData,
      financial_data := (alookup successes "data_fetcher").bind truthyData,
      successful_agents := dkeys successes,
      failed_agents := dkeys failures,
      agent_status := results.map fun kv => (kv.1, kv.2.status),
      total_agents := results.length,
      successful_count := successes.length,
      failed_count := failures.length }

/-! ### Orchestrator state machine (orchestrator.py) -/

/-- `TaskStatus` from orchestrator.py. -/
inductive TaskStatus where
  | pending | planning | executing | completed | error | waitingForClarification
deriving DecidableEq, Repr

/-- The orchestrator's mutable session state: its status, `current_task`
(Python initialises it to `None`, which is never read before the first
assignment; modelled as the empty string), and the persistent agent objects. -/
structure OrchState where
  status : TaskStatus := .pending
  currentTask : String := ""
  agentStates : List (String × AgentState) :=
    [("data_fetcher", {}), ("analyzer", {}), ("visualizer", {}), ("summarizer", {})]
deriving DecidableEq, Repr

/-- `process_request`'s `try/except` skeleton, abstracted over the three steps
so the top-level catch is stated once for ANY exception any step may raise.
A step returns its (possibly partial) state mutation together with either a
value or the exception it raised. -/
def processRequestWith
    (planStep : Except String TaskPlan)
    (execStep : TaskPlan → OrchState → OrchState × Except String (List (String × AgentResult)))
    (aggStep : List (String × AgentResult) → TaskPlan → Except String Envelope)
    (st : OrchState) (request : String) : OrchState × Envelope :=
  let st1 := { st with status := TaskStatus.planning, currentTask := request }
  match planStep with
  | .error e => ({ st1 with status := TaskStatus.error }, .errorEnv e request)
  | .ok plan =>
    if plan.clarification_needed then
      ({ st1 with status := TaskStatus.waitingForClarification },
       .clarification plan.clarification_questions request)
    else
      let st2 := { st1 with status := TaskStatus.executing }
      let so := execStep plan st2
      match so.2 with
      | .error e => ({ so.1 with status := TaskStatus.error }, .errorEnv e request)
      | .ok results =>
        match aggStep results plan with
        | .error e => ({ so.1 with status := TaskStatus.error }, .errorEnv e request)
        | .ok envl => ({ so.1 with status := TaskStatus.completed }, envl)

/-- The concrete execution step: run the plan over the registry, updating the
persistent agent objects (total — every fault is already captured inside). -/
def execStepConcrete (env : Env) (plan : TaskPlan) (st : OrchState) :
    OrchState × Except String (List (String × AgentResult)) :=
  let out := execPlan (mkAgents env) plan.task plan.execution_order plan.context
    st.agentStates []
  ({ st with agentStates := out.2.2 }, .ok out.1)

/-- `MultiAgentOrchestrator.process_request`. In the model the three concrete
steps are total (`_plan_task` catches everything and falls back; the Executor
captures worker faults; the Aggregator is pure), so they are injected as
always-`ok` steps of the catch skeleton. A falsy caller context and
`context or an empty dict` coincide in the model. -/
def processRequest (env : Env) (st : OrchState) (request : String)
    (context : SharedCtx) : OrchState × Envelope :=
  processRequestWith (.ok (planTask env request context)) (execStepConcrete env)
    (fun res plan => .ok (aggregateResults res plan)) st request

/-- The fresh context `handle_clarification` builds. -/
def onlyAnswers (answers : List (String × String)) : SharedCtx :=
  { clarification_answers := some answers }

/-- `MultiAgentOrchestrator.handle_clarification`. -/
def handleClarification (env : Env) (st : OrchState)
    (answers : List (String × String)) : OrchState × Envelope :=
  if st.status ≠ TaskStatus.waitingForClarification then
    (st, .noClarification "No clarification needed at this time")
  else
    processRequest env { st with status := TaskStatus.planning } st.currentTask
      (onlyAnswers answers)

/-! ### Properties and concrete instances referenced by the claims -/

/-- The Worker Result invariant of spec section 3. -/
def resultInvariant (r : AgentResult) : Prop :=
  (r.status = AgentStatus.completed → r.error = none) ∧
    (r.status = AgentStatus.error → r.data = none ∧ r.error ≠ none)

/-- Extract an analysis payload from a result. -/
def resultAnalysis (r : AgentResult) : Option Analysis :=
  match r.data with
  | some (.analysis m) => some m
  | _ => none

/-- Extract a fetch payload from a result. -/
def resultFetchData (r : AgentResult) : Option FetchData :=
  match r.data with
  | some (.fetch fd) => some fd
  | _ => none

/-- The analyzer outputs that the source emits without any rounding (the two
quarter dicts, the trend average and the per-unit efficiency metric). -/
def unroundedKeys : List String :=
  ["avg_daily_profit", "profit_per_unit", "quarterly_profit", "quarterly_profit_changes"]

/-- Every numeric inside the value is NaN/±inf or a multiple of 1/100. -/
def avalRoundedB : AVal → Bool
  | .num r => r.rounded2
  | .str _ => true
  | .dictQ m => m.all fun kv => kv.2.rounded2
  | .dict2 m => m.all fun kv => kv.2.all fun kv2 => kv2.2.rounded2

/-- Rounded to 2 decimals, and unit counts (`total_units`) to 0 decimals. -/
def entryOKB (k : String) (v : AVal) : Bool :=
  avalRoundedB v &&
    (if k = "total_units" then
      (match v with | .num r => r.rounded0 | _ => false)
     else true)

/-- The fallback planner's keyword test for one canonical worker id. -/
def workerKeywordHit (task : String) (w : String) : Bool :=
  if w = "data_fetcher" then hasAny (pyLower task) fetchKeywords
  else if w = "analyzer" then hasAny (pyLower task) analyzeKeywords
  else if w = "visualizer" then hasAny (pyLower task) visualizeKeywords
  else if w = "summarizer" then hasAny (pyLower task) summarizeKeywords
  else false

def envSuccessful : Envelope → Option (List String)
  | .done e => some e.successful_agents
  | _ => none

def envFailed : Envelope → Option (List String)
  | .done e => some e.failed_agents
  | _ => none

def envAnalysisLookup (k : String) : Envelope → Option AVal
  | .done e =>
    match e.analysis with
    | some (.analysis m) => alookup m k
    | _ => none
  | _ => none

/-- A one-row workbook: a Government row dated 2020-01-15 with profit 10. -/
def c7Row : Row := { date := ⟨2020, 1, 15⟩, segment := "Government", profit := 10 }

/-- The workbook with a `Date` column. -/
def c7EnvDate : Env := { excelData := ⟨[Col.date, Col.segment, Col.profit], [c7Row]⟩ }

/-- The same workbook without a `Date` column. -/
def c7EnvNoDate : Env := { excelData := ⟨[Col.segment, Col.profit], [c7Row]⟩ }

/-- First request of the persistence scenario (fetcher only, matches the row). -/
def c8Run1 : OrchState × Envelope :=
  processRequest c7EnvDate {} "fetch government data today please" {}

/-- Second request (fetcher then analyzer; the Enterprise filter matches no
row), continued from the state the first request left behind. -/
def c8Run2 : OrchState × Envelope :=
  processRequest c7EnvDate c8Run1.1 "fetch and analyze enterprise data trends" {}

/-- The same second request on a fresh orchestrator. -/
def c8RunFresh : OrchState × Envelope :=
  processRequest c7EnvDate {} "fetch and analyze enterprise data trends" {}

/-- A fetch payload whose two profits average to 3/200, which no 2-decimal
value can equal. -/
def c9Fd : FetchData :=
  { raw_data := [{ profit := 1/100 }, { profit := 2/100 }],
    summary_stats := {}, filters_applied := {}, data_points := 2,
    columns := [Col.profit], date_range := ⟨"N/A", "N/A"⟩ }

/-- A worker that always raises (exercises the Executor's fault capture). -/
def raisingAgent : Agent := ⟨fun _ _ st => (.error "kaboom", st)⟩

/-- The fixed Result of the toy worker below. -/
def okResult : AgentResult :=
  { agent_id := "w", status := .completed, data := some (.text "x") }

/-- A worker that always returns a fixed completed Result. -/
def okAgent : Agent := ⟨fun _ _ st => (.ok okResult, st)⟩

/-- A two-worker registry for executor witnesses. -/
def witnessReg : List (String × Agent) := [("w", okAgent), ("r", raisingAgent)]

/-! ### Association-list lemmas -/

theorem alookup_dinsert {α : Type} (l : List (String × α)) (k' v k) :
    alookup (dinsert l k' v) k = if k' = k then some v else alookup l k := by
  induction l with
  | nil => by_cases h : k' = k <;> simp [dinsert, alookup, h]
  | cons a rest ih =>
    obtain ⟨k0, w⟩ := a
    by_cases h1 : k0 = k'
    · subst h1
      by_cases h2 : k0 = k <;> simp [dinsert, alookup, h2]
    · by_cases h2 : k0 = k
      · subst h2
        have : ¬ k' = k0 := fun h => h1 h.symm
        simp [dinsert, alookup, h1, this]
      · simp [dinsert, alookup, h1, h2, ih]

theorem alookup_mem {α : Type} {l : List (String × α)} {k : String} {v : α}
    (h : alookup l k = some v) : (k, v) ∈ l := by
  induction l with
  | nil => simp [alookup] at h
  | cons a rest ih =>
    obtain ⟨k0, w⟩ := a
    by_cases h1 : k0 = k
    · subst h1
      simp [alookup] at h
      simp [h]
    · simp [alookup, h1] at h
      exact List.mem_cons_of_mem _ (ih h)

theorem alookup_dupdate_mem {α : Type} {b : List (String × α)} :
    ∀ (a : List (String × α)) {k : String} {v : α},
      alookup (dupdate a b) k = some v → alookup a k = some v ∨ (k, v) ∈ b := by
  induction b with
  | nil => intro a k v h; exact Or.inl h
  | cons x bs ih =>
    intro a k v h
    obtain ⟨x1, x2⟩ := x
    rcases ih (dinsert a x1 x2) h with hl | hr
    · rw [alookup_dinsert] at hl
      by_cases hx : x1 = k
      · rw [if_pos hx] at hl
        injection hl with hl
        right
        subst hx
        subst hl
        exact List.mem_cons_self _ _
      · rw [if_neg hx] at hl
        exact Or.inl hl
    · exact Or.inr (List.mem_cons_of_mem _ hr)

theorem alookup_dupdate_of_nmem {α : Type} {b : List (String × α)} :
    ∀ (a : List (String × α)) (k : String), k ∉ dkeys b →
      alookup (dupdate a b) k = alookup a k := by
  induction b with
  | nil => intro a k _; rfl
  | cons x bs ih =>
    intro a k hk
    have hx : x.1 ≠ k := by
      intro h
      exact hk (by simp [dkeys, h])
    have hk2 : k ∉ dkeys bs := by
      intro h
      exact hk (by simp [dkeys] at h ⊢; exact Or.inr h)
    have step : dupdate a (x :: bs) = dupdate (dinsert a x.1 x.2) bs := rfl
    rw [step, ih (dinsert a x.1 x.2) k hk2, alookup_dinsert, if_neg hx]

theorem alookup_dupdate_of_mem {α : Type} {b : List (String × α)} :
    ∀ (a : List (String × α)) {k : String} {v : α}, (dkeys b).Nodup → (k, v) ∈ b →
      alookup (dupdate a b) k = some v := by
  induction b with
  | nil => intro a k v _ hmem; simp at hmem
  | cons x bs ih =>
    intro a k v hb hmem
    obtain ⟨x1, x2⟩ := x
    have hb1 : x1 ∉ dkeys bs := by
      have : dkeys ((x1, x2) :: bs) = x1 :: dkeys bs := rfl
      rw [this] at hb
      exact (List.nodup_cons.mp hb).1
    have hb2 : (dkeys bs).Nodup := by
      have : dkeys ((x1, x2) :: bs) = x1 :: dkeys bs := rfl
      rw [this] at hb
      exact (List.nodup_cons.mp hb).2
    rcases List.mem_cons.mp hmem with heq | htl
    · obtain ⟨hk1, hv1⟩ := Prod.mk.injEq .. ▸ heq
      have step : dupdate a ((x1, x2) :: bs) = dupdate (dinsert a x1 x2) bs := rfl
      rw [step, alookup_dupdate_of_nmem _ k (hk1 ▸ hb1), alookup_dinsert,
        if_pos hk1.symm, hv1]
    · exact ih (dinsert a x1 x2) hb2 htl

theorem dkeys_dinsert {α : Type} (l : List (String × α)) (k : String) (v : α) :
    dkeys (dinsert l k v) = if k ∈ dkeys l then dkeys l else dkeys l ++ [k] := by
  induction l with
  | nil => simp [dinsert, dkeys]
  | cons a rest ih =>
    obtain ⟨k0, w⟩ := a
    by_cases h : k0 = k
    · subst h
      simp [dinsert, dkeys]
    · have hne : ¬ k = k0 := fun he => h he.symm
      have hstep : dkeys (dinsert ((k0, w) :: rest) k v) =
          k0 :: dkeys (dinsert rest k v) := by
        simp [dinsert, h, dkeys]
      rw [hstep, ih]
      by_cases h2 : k ∈ List.map Prod.fst rest
      · simp [h2, hne, dkeys]
      · simp [h2, hne, dkeys]

theorem mem_dkeys_dinsert {α : Type} (l : List (String × α)) (k : String) (v : α)
    (k2 : String) : k2 ∈ dkeys (dinsert l k v) ↔ k2 = k ∨ k2 ∈ dkeys l := by
  rw [dkeys_dinsert]
  by_cases h : k ∈ dkeys l
  · rw [if_pos h]
    constructor
    · exact Or.inr
    · rintro (rfl | h2)
      · exact h
      · exact h2
  · rw [if_neg h]
    simp [List.mem_append]
    tauto

theorem nodup_dkeys_dinsert {α : Type} (l : List (String × α)) (k : String) (v : α)
    (h : (dkeys l).Nodup) : (dkeys (dinsert l k v)).Nodup := by
  induction l with
  | nil => simp [dinsert, dkeys]
  | cons a rest ih =>
    obtain ⟨k0, w⟩ := a
    have hcons : dkeys ((k0, w) :: rest) = k0 :: dkeys rest := rfl
    rw [hcons] at h
    have h0 : k0 ∉ dkeys rest := (List.nodup_cons.mp h).1
    have h1 : (dkeys rest).Nodup := (List.nodup_cons.mp h).2
    by_cases hk : k0 = k
    · subst hk
      simpa [dinsert, dkeys] using List.nodup_cons.mpr ⟨h0, h1⟩
    · have hstep : dkeys (dinsert ((k0, w) :: rest) k v) =
          k0 :: dkeys (dinsert rest k v) := by
        simp [dinsert, hk, dkeys]
      rw [hstep, List.nodup_cons]
      refine ⟨?_, ih h1⟩
      rw [mem_dkeys_dinsert]
      rintro (h2 | h2)
      · exact hk h2
      · exact h0 h2

theorem alookup_eq_of_mem_nodup {α : Type} {l : List (String × α)} {k : String}
    {v : α} (h : (dkeys l).Nodup) (hm : (k, v) ∈ l) : alookup l k = some v := by
  induction l with
  | nil => simp at hm
  | cons a rest ih =>
    obtain ⟨k0, w⟩ := a
    have hcons : dkeys ((k0, w) :: rest) = k0 :: dkeys rest := rfl
    rw [hcons] at h
    rcases List.mem_cons.mp hm with heq | htl
    · obtain ⟨h1, h2⟩ := Prod.mk.injEq .. ▸ heq
      simp [alookup, h1.symm, h2]
    · have hne : k0 ≠ k := by
        intro hk
        subst hk
        exact (List.nodup_cons.mp h).1
          (List.mem_map.mpr ⟨(k0, v), htl, rfl⟩)
      simp [alookup, hne]
      exact ih (List.nodup_cons.mp h).2 htl

theorem mem_value_unique {α : Type} {l : List (String × α)} (h : (dkeys l).Nodup)
    {k : String} {v1 v2 : α} (h1 : (k, v1) ∈ l) (h2 : (k, v2) ∈ l) : v1 = v2 := by
  have e1 := alookup_eq_of_mem_nodup h h1
  have e2 := alookup_eq_of_mem_nodup h h2
  rw [e1] at e2
  injection e2

theorem alookup_foldl_mem {α : Type} {ps : List (List (String × α))} :
    ∀ (m0 : List (String × α)) {k : String} {v : α},
      alookup (ps.foldl dupdate m0) k = some v →
        alookup m0 k = some v ∨ ∃ p ∈ ps, (k, v) ∈ p := by
  induction ps with
  | nil => intro m0 k v h; exact Or.inl h
  | cons p rest ih =>
    intro m0 k v h
    rcases ih (dupdate m0 p) h with hl | ⟨p2, hp2, hm⟩
    · rcases alookup_dupdate_mem _ hl with h1 | h2
      · exact Or.inl h1
      · exact Or.inr ⟨p, List.mem_cons_self _ _, h2⟩
    · exact Or.inr ⟨p2, List.mem_cons_of_mem _ hp2, hm⟩

theorem alookup_foldl_nmem {α : Type} {ps : List (List (String × α))} :
    ∀ (m0 : List (String × α)) (k : String), (∀ p ∈ ps, k ∉ dkeys p) →
      alookup (ps.foldl dupdate m0) k = alookup m0 k := by
  induction ps with
  | nil => intro m0 k _; rfl
  | cons p rest ih =>
    intro m0 k hall
    have h1 : k ∉ dkeys p := hall p (List.mem_cons_self _ _)
    have h2 : ∀ q ∈ rest, k ∉ dkeys q := fun q hq => hall q (List.mem_cons_of_mem _ hq)
    have step : (p :: rest).foldl dupdate m0 = rest.foldl dupdate (dupdate m0 p) := rfl
    rw [step, ih (dupdate m0 p) k h2, alookup_dupdate_of_nmem _ _ h1]

theorem alookup_foldl_last {α : Type} (qs : List (List (String × α)))
    (b : List (String × α)) (m0 : List (String × α)) {k : String} {v : α}
    (hb : (dkeys b).Nodup) (hmem : (k, v) ∈ b) :
    alookup ((qs ++ [b]).foldl dupdate m0) k = some v := by
  rw [List.foldl_append]
  exact alookup_dupdate_of_mem _ hb hmem

/-! ### Claim C4 -/

/-- C4: calling resume (`handle_clarification`) when the state is not
WaitingForClarification returns the immediate bare error envelope and mutates
no orchestrator state (the state returned is the state passed); when the state
is WaitingForClarification it re-invokes `process_request` with the same
`current_task` and a fresh context whose only entry is
`clarification_answers`. -/
theorem c4_handle_clarification (env : Env) (st : OrchState)
    (answers : List (String × String)) :
    (st.status ≠ TaskStatus.waitingForClarification →
      handleClarification env st answers =
        (st, Envelope.noClarification "No clarification needed at this time")) ∧
    (st.status = TaskStatus.waitingForClarification →
      handleClarification env st answers =
        processRequest env { st with status := TaskStatus.planning } st.currentTask
          { clarification_answers := some answers }) := by
  constructor
  · intro h
    simp [handleClarification, h]
  · intro h
    simp [handleClarification, h, onlyAnswers]

/-- Witness for C4: both branches exercised at concrete states. -/
theorem c4_witness :
    (handleClarification {} { status := TaskStatus.pending } [] =
      ({ status := TaskStatus.pending },
       Envelope.noClarification "No clarification needed at this time")) ∧
    (handleClarification {} { status := TaskStatus.waitingForClarification } [("q", "a")] =
      processRequest {} { status := TaskStatus.planning } ""
        { clarification_answers := some [("q", "a")] }) := by
  constructor
  · exact (c4_handle_clarification {} { status := TaskStatus.pending } []).1 (by decide)
  · exact (c4_handle_clarification {}
      { status := TaskStatus.waitingForClarification } [("q", "a")]).2 rfl

/-! ### Claim C5 -/

/-- C5 counterexample: with `clarification_answers` PRESENT in the context but
empty, the fallback planner still requests clarification for the vague task
"help me" — the source tests truthiness (`bool(context.get(...))`), not
presence, so the claim's "never requests clarification when present" fails. -/
theorem c5_counterexample :
    (({ clarification_answers := some [] } : SharedCtx).clarification_answers).isSome
        = true ∧
    (createFallbackPlan "help me"
        { clarification_answers := some [] }).clarification_needed = true := by
  constructor
  · rfl
  · rfl

/-- C5 (amended): if `clarification_answers` is absent and the task is vague
(fixed-phrase hit or at most 3 words), the fallback planner returns
`clarificationNeeded = true` with exactly the 4 fixed questions and an empty
execution order; and when `clarification_answers` is present AND NON-EMPTY,
it never requests clarification. -/
theorem c5_fallback_clarification (task : String) (ctx : SharedCtx) :
    (ctx.clarification_answers = none → isVague task = true →
      createFallbackPlan task ctx =
        { task := task, agents_needed := [], execution_order := [], context := ctx,
          clarification_needed := true,
          clarification_questions := fixedClarificationQuestions } ∧
        fixedClarificationQuestions.length = 4) ∧
    (ctx.answersTruthy = true →
      (createFallbackPlan task ctx).clarification_needed = false) := by
  constructor
  · intro h1 h2
    have ha : ctx.answersTruthy = false := by
      simp [SharedCtx.answersTruthy, h1]
    refine ⟨?_, rfl⟩
    simp [createFallbackPlan, ha, h2]
  · intro h1
    simp [createFallbackPlan, h1]

/-- Witness for C5's amended theorem: both branches at concrete inputs. -/
theorem c5_witness :
    (createFallbackPlan "help me" {} =
      { task := "help me", agents_needed := [], execution_order := [],
        context := {}, clarification_needed := true,
        clarification_questions := fixedClarificationQuestions }) ∧
    ((createFallbackPlan "help me"
        { clarification_answers := some [("q", "a")] }).clarification_needed = false) := by
  constructor
  · exact ((c5_fallback_clarification "help me" {}).1 rfl (by decide)).1
  · exact (c5_fallback_clarification "help me"
      { clarification_answers := some [("q", "a")] }).2 rfl

/-! ### Claim C6 -/

/-- C6: when the fallback planner does not take the vague branch, selection is
by independent keyword tests preserving the canonical order — the selection
equals filtering the canonical order by the per-worker keyword predicate —
`execution_order` equals the selection, `agents_needed` equals
`execution_order`, and an empty selection defaults to the full canonical
order. -/
theorem c6_fallback_selection (task : String) (ctx : SharedCtx)
    (h : ¬(ctx.answersTruthy = false ∧ isVague task = true)) :
    (createFallbackPlan task ctx).clarification_needed = false ∧
    (createFallbackPlan task ctx).execution_order =
      (if (defaultOrder.filter (workerKeywordHit task)).isEmpty then defaultOrder
       else defaultOrder.filter (workerKeywordHit task)) ∧
    (createFallbackPlan task ctx).agents_needed =
      (createFallbackPlan task ctx).execution_order := by
  have hcond : (!ctx.answersTruthy && isVague task) = false := by
    cases ha : ctx.answersTruthy <;> cases hv : isVague task <;> simp_all
  have hfilter : defaultOrder.filter (workerKeywordHit task) =
      (if hasAny (pyLower task) fetchKeywords then ["data_fetcher"] else []) ++
        (if hasAny (pyLower task) analyzeKeywords then ["analyzer"] else []) ++
        (if hasAny (pyLower task) visualizeKeywords then ["visualizer"] else []) ++
        (if hasAny (pyLower task) summarizeKeywords then ["summarizer"] else []) := by
    cases h1 : hasAny (pyLower task) fetchKeywords <;>
      cases h2 : hasAny (pyLower task) analyzeKeywords <;>
        cases h3 : hasAny (pyLower task) visualizeKeywords <;>
          cases h4 : hasAny (pyLower task) summarizeKeywords <;>
            simp [defaultOrder, List.filter, workerKeywordHit, h1, h2, h3, h4]
  refine ⟨?_, ?_, ?_⟩ <;>
    simp [createFallbackPlan, hcond, hfilter]

/-- Witness for C6: a non-vague request with no recognized keyword selects the
full canonical order. -/
theorem c6_witness :
    (createFallbackPlan "evaluate my enterprise profit numbers" {}).execution_order =
      ["data_fetcher", "analyzer", "visualizer", "summarizer"] := by
  have h := c6_fallback_selection "evaluate my enterprise profit numbers" {} (by decide)
  rw [h.2.1]
  decide

/-! ### Claim C7 -/

/-- C7 (code bug in the source): with a non-empty raw workbook that has a
`Date` column, a filter matching zero rows makes `execute` raise inside
`_calculate_summary_stats` (`NaT.strftime`) and return an Error result — not
the Completed `data_points = 0` result the spec describes. Without the `Date`
column the intended Completed result with `data_points = 0` and an empty
segment breakdown is produced, confirming the empty-statistics path exists and
the `Date` branch is the slip (`_get_date_range` directly below it does guard
emptiness). -/
theorem c7_zero_match_filter :
    ((fetcherExecute c7EnvDate "get enterprise data" {} {}).1.status =
        AgentStatus.error ∧
      (fetcherExecute c7EnvDate "get enterprise data" {} {}).1.error =
        some "NaTType does not support strftime") ∧
    ((fetcherExecute c7EnvNoDate "get enterprise data" {} {}).1.status =
        AgentStatus.completed ∧
      (resultFetchData (fetcherExecute c7EnvNoDate "get enterprise data" {} {}).1).map
          FetchData.data_points = some 0 ∧
      ((resultFetchData (fetcherExecute c7EnvNoDate "get enterprise data" {} {}).1).bind
          fun fd => fd.summary_stats.segment_breakdown) = some []) := by
  refine ⟨⟨?_, ?_⟩, ?_, ?_, ?_⟩ <;> rfl

/-! ### Claim C10 -/

/-- C10: the summarizer's `execute` returns an Error result exactly when the
financial-data read (private context first, then the truthy call context)
yields nothing; and whenever the financial data is present but the
reasoning-service call fails, it returns a Completed result whose data is
exactly the deterministic templated fallback summary of the prepared digest. -/
theorem c10_summarizer (env : Env) (task : String) (shared : SharedCtx)
    (st : AgentState) :
    ((summarizerExecute env task shared st).1.status = AgentStatus.error ↔
      (summarizerInputs shared st.ctx).1 = none) ∧
    (∀ fd ar vis e, summarizerInputs shared st.ctx = (some fd, ar, vis) →
      env.summaryOutcome = Except.error e →
      (summarizerExecute env task shared st).1.status = AgentStatus.completed ∧
      (summarizerExecute env task shared st).1.data =
        some (.text (createFallbackSummary (prepareSummaryData fd ar vis))) ∧
      (summarizerExecute env task shared st).1.error = none) := by
  constructor
  · rcases hsi : summarizerInputs shared st.ctx with ⟨fd, ar, vis⟩
    cases fd <;> simp [summarizerExecute, hsi]
  · intro fd ar vis e hsi hllm
    simp [summarizerExecute, hsi, generateSummary, hllm]

/-- Witness for C10: concrete fallback run (reasoning service down, data
present) and a concrete error run (no data anywhere). -/
theorem c10_witness :
    ((summarizerExecute {} "summarize" { financial_data := some c9Fd } {}).1.data =
      some (.text (createFallbackSummary (prepareSummaryData c9Fd none none)))) ∧
    ((summarizerExecute {} "please summarize" {} {}).1.status = AgentStatus.error) := by
  constructor
  · exact ((c10_summarizer {} "summarize" { financial_data := some c9Fd } {}).2
      c9Fd none none "reasoning service unavailable" rfl rfl).2.1
  · exact (c10_summarizer {} "please summarize" {} {}).1.mpr rfl

/-! ### Claim C1 -/

/-- The session state in which `process_request` runs the Executor. -/
def executingState (st : OrchState) (request : String) : OrchState :=
  { st with status := TaskStatus.executing, currentTask := request }

/-- A trivial plan for witnesses. -/
def emptyPlan : TaskPlan :=
  { task := "t", agents_needed := [], execution_order := [], context := {} }

/-- C1: the `process_request` catch skeleton never lets an exception escape to
the caller: whichever of the planning, execution or aggregation steps raises,
the session state ends `Error` and the returned envelope is exactly
`{status: error, error: message, task: request}`; and a run in which no step
raises ends in WaitingForClarification or Completed. -/
theorem c1_process_request_catches (planStep : Except String TaskPlan)
    (execStep : TaskPlan → OrchState →
      OrchState × Except String (List (String × AgentResult)))
    (aggStep : List (String × AgentResult) → TaskPlan → Except String Envelope)
    (st : OrchState) (request : String) :
    (∀ e, planStep = .error e →
      processRequestWith planStep execStep aggStep st request =
        ({ st with status := TaskStatus.error, currentTask := request },
         Envelope.errorEnv e request)) ∧
    (∀ plan e, planStep = .ok plan → plan.clarification_needed = false →
      (execStep plan (executingState st request)).2 = .error e →
      processRequestWith planStep execStep aggStep st request =
        ({ (execStep plan (executingState st request)).1 with
            status := TaskStatus.error },
         Envelope.errorEnv e request)) ∧
    (∀ plan results e, planStep = .ok plan → plan.clarification_needed = false →
      (execStep plan (executingState st request)).2 = .ok results →
      aggStep results plan = .error e →
      processRequestWith planStep execStep aggStep st request =
        ({ (execStep plan (executingState st request)).1 with
            status := TaskStatus.error },
         Envelope.errorEnv e request)) ∧
    ((processRequestWith planStep execStep aggStep st request).1.status =
        TaskStatus.error →
      ∃ e, (processRequestWith planStep execStep aggStep st request).2 =
        Envelope.errorEnv e request) ∧
    ((processRequestWith planStep execStep aggStep st request).1.status ≠
        TaskStatus.error →
      (processRequestWith planStep execStep aggStep st request).1.status =
          TaskStatus.waitingForClarification ∨
        (processRequestWith planStep execStep aggStep st request).1.status =
          TaskStatus.completed) := by
  refine ⟨?_, ?_, ?_, ?_, ?_⟩
  · rintro e rfl
    rfl
  · rintro plan e rfl hclar hexec
    simp only [executingState] at hexec
    simp [processRequestWith, hclar, hexec, executingState]
  · rintro plan results e rfl hclar hexec hagg
    simp only [executingState] at hexec
    simp [processRequestWith, hclar, hexec, hagg, executingState]
  · intro herr
    rcases planStep with e | plan
    · exact ⟨e, rfl⟩
    · by_cases hclar : plan.clarification_needed
      · exfalso
        simp [processRequestWith, hclar] at herr
      · simp only [processRequestWith, hclar, Bool.false_eq_true, if_false] at herr ⊢
        rcases hexec : (execStep plan
            { { st with status := TaskStatus.planning, currentTask := request } with
              status := TaskStatus.executing }).2 with e2 | results
        · exact ⟨e2, by simp [hexec]⟩
        · rcases hagg : aggStep results plan with e3 | envl
          · exact ⟨e3, by simp [hexec, hagg]⟩
          · exfalso
            simp [hexec, hagg] at herr
  · intro hne
    rcases planStep with e | plan
    · exact absurd rfl hne
    · by_cases hclar : plan.clarification_needed
      · left
        simp [processRequestWith, hclar]
      · simp only [processRequestWith, hclar, Bool.false_eq_true, if_false] at hne ⊢
        rcases hexec : (execStep plan
            { { st with status := TaskStatus.planning, currentTask := request } with
              status := TaskStatus.executing }).2 with e2 | results
        · exact absurd (by simp [hexec]) hne
        · rcases hagg : aggStep results plan with e3 | envl
          · exact absurd (by simp [hexec, hagg]) hne
          · right
            simp [hexec, hagg]

/-- Witness for C1: a planning-step raise, an execution-step raise, and an
aggregation-step raise, each at concrete inputs. -/
theorem c1_witness :
    (processRequestWith (.error "llm down, fallback crashed")
        (fun _ s => (s, .ok [])) (fun r p => .ok (aggregateResults r p)) {} "t" =
      ({ status := TaskStatus.error, currentTask := "t" },
       Envelope.errorEnv "llm down, fallback crashed" "t")) ∧
    (processRequestWith (.ok emptyPlan)
        (fun _ s => (s, .error "TypeError: NoneType is not iterable"))
        (fun r p => .ok (aggregateResults r p)) {} "t" =
      ({ status := TaskStatus.error, currentTask := "t" },
       Envelope.errorEnv "TypeError: NoneType is not iterable" "t")) ∧
    (processRequestWith (.ok emptyPlan)
        (fun _ s => (s, .ok [])) (fun _ _ => .error "agg boom") {} "t" =
      ({ status := TaskStatus.error, currentTask := "t" },
       Envelope.errorEnv "agg boom" "t")) := by
  refine ⟨?_, ?_, ?_⟩
  · exact (c1_process_request_catches _ _ _ {} "t").1 "llm down, fallback crashed" rfl
  · exact (c1_process_request_catches _ _ _ {} "t").2.1 _ _ rfl rfl rfl
  · exact (c1_process_request_catches _ _ _ {} "t").2.2.1 _ [] _ rfl rfl rfl rfl

/-! ### Claim C2 -/

/-- C2: every Result returned by any of the four workers' `execute`, and every
Result fabricated by the Executor's fault capture, satisfies the invariant:
Completed implies a null error, and Error implies a null payload and a
non-null error — for every environment, task, context and prior agent state
(including empty datasets). -/
theorem c2_result_invariant (env : Env) (task : String) (shared : SharedCtx)
    (st : AgentState) :
    resultInvariant (fetcherExecute env task shared st).1 ∧
    resultInvariant (analyzerExecute env task shared st).1 ∧
    resultInvariant (visualizerExecute env task shared st).1 ∧
    resultInvariant (summarizerExecute env task shared st).1 ∧
    (∀ agentId msg, resultInvariant (faultResult agentId msg)) := by
  refine ⟨?_, ?_, ?_, ?_, ?_⟩
  · unfold fetcherExecute
    rcases h : fetcherBody env task shared with e | p <;>
      simp [resultInvariant, h]
  · unfold analyzerExecute
    rcases h : analyzerBody task shared st.ctx with e | m <;>
      simp [resultInvariant, h]
  · unfold visualizerExecute
    rcases h : visualizerBody task shared st.ctx with e | v <;>
      simp [resultInvariant, h]
  · unfold summarizerExecute
    rcases h : summarizerInputs shared st.ctx with ⟨_ | fd, ar, vis⟩ <;>
      simp [resultInvariant, h]
  · intro agentId msg
    simp [resultInvariant, faultResult]

/-- Witness for C2: the hypotheses of the invariant discharged on a concrete
Completed result and a concrete Error result. -/
theorem c2_witness :
    (fetcherExecute c7EnvNoDate "get enterprise data" {} {}).1.error = none ∧
    (fetcherExecute c7EnvDate "get enterprise data" {} {}).1.data = none := by
  constructor
  · exact (c2_result_invariant c7EnvNoDate "get enterprise data" {} {}).1.1 rfl
  · exact ((c2_result_invariant c7EnvDate "get enterprise data" {} {}).1.2 rfl).1

/-! ### Claim C3: executor and aggregator lemmas -/

theorem mem_dinsert {α : Type} {l : List (String × α)} {k : String} {v : α} :
    ∀ kv ∈ dinsert l k v, kv ∈ l ∨ kv = (k, v) := by
  induction l with
  | nil =>
    intro kv hkv
    simp [dinsert] at hkv
    exact Or.inr hkv
  | cons a rest ih =>
    intro kv hkv
    obtain ⟨k0, w⟩ := a
    by_cases h : k0 = k
    · subst h
      simp only [dinsert, if_pos rfl] at hkv
      rcases List.mem_cons.mp hkv with heq | htl
      · exact Or.inr heq
      · exact Or.inl (List.mem_cons_of_mem _ htl)
    · simp only [dinsert, if_neg h] at hkv
      rcases List.mem_cons.mp hkv with heq | htl
      · exact Or.inl (heq ▸ List.mem_cons_self _ _)
      · rcases ih kv htl with hl | hr
        · exact Or.inl (List.mem_cons_of_mem _ hl)
        · exact Or.inr hr

theorem execPlan_skip (reg : List (String × Agent)) (task : String) (i : String)
    (rest : List String) (sh : SharedCtx) (sts : List (String × AgentState))
    (acc : List (String × AgentResult)) (h : alookup reg i = none) :
    execPlan reg task (i :: rest) sh sts acc = execPlan reg task rest sh sts acc := by
  simp [execPlan, h]

theorem execPlan_step_ok (reg : List (String × Agent)) (task : String) (i : String)
    (rest : List String) (sh : SharedCtx) (sts : List (String × AgentState))
    (acc : List (String × AgentResult)) (ag : Agent) (r : AgentResult)
    (stOut : AgentState) (h1 : alookup reg i = some ag)
    (h2 : ag.execute task sh ((alookup sts i).getD {}) = (.ok r, stOut)) :
    execPlan reg task (i :: rest) sh sts acc =
      execPlan reg task rest (sh.update stOut.ctx) (dinsert sts i stOut)
        (dinsert acc i r) := by
  simp [execPlan, h1, h2]

theorem execPlan_step_raise (reg : List (String × Agent)) (task : String)
    (i : String) (rest : List String) (sh : SharedCtx)
    (sts : List (String × AgentState)) (acc : List (String × AgentResult))
    (ag : Agent) (e : String) (stOut : AgentState) (h1 : alookup reg i = some ag)
    (h2 : ag.execute task sh ((alookup sts i).getD {}) = (.error e, stOut)) :
    execPlan reg task (i :: rest) sh sts acc =
      execPlan reg task rest sh (dinsert sts i stOut)
        (dinsert acc i (faultResult i e)) := by
  simp [execPlan, h1, h2]

theorem execPlan_keys (reg : List (String × Agent)) (task : String) :
    ∀ (order : List String) (sh : SharedCtx) (sts : List (String × AgentState))
      (acc : List (String × AgentResult)) (k : String),
      k ∈ dkeys (execPlan reg task order sh sts acc).1 ↔
        k ∈ dkeys acc ∨ (k ∈ order ∧ (alookup reg k).isSome) := by
  intro order
  induction order with
  | nil =>
    intro sh sts acc k
    simp [execPlan]
  | cons i rest ih =>
    intro sh sts acc k
    rcases hreg : alookup reg i with _ | ag
    · rw [execPlan_skip reg task i rest sh sts acc hreg, ih]
      by_cases hk : k = i
      · subst hk
        simp [hreg]
      · simp [List.mem_cons, hk]
    · rcases hp : ag.execute task sh ((alookup sts i).getD {}) with ⟨res, stOut⟩
      cases res with
      | ok r =>
        rw [execPlan_step_ok reg task i rest sh sts acc ag r stOut hreg hp, ih,
          mem_dkeys_dinsert]
        by_cases hk : k = i
        · subst hk
          simp [hreg, List.mem_cons]
        · simp [List.mem_cons, hk]
      | error e =>
        rw [execPlan_step_raise reg task i rest sh sts acc ag e stOut hreg hp, ih,
          mem_dkeys_dinsert]
        by_cases hk : k = i
        · subst hk
          simp [hreg, List.mem_cons]
        · simp [List.mem_cons, hk]

theorem execPlan_keys_nodup (reg : List (String × Agent)) (task : String) :
    ∀ (order : List String) (sh : SharedCtx) (sts : List (String × AgentState))
      (acc : List (String × AgentResult)), (dkeys acc).Nodup →
      (dkeys (execPlan reg task order sh sts acc).1).Nodup := by
  intro order
  induction order with
  | nil =>
    intro sh sts acc h
    exact h
  | cons i rest ih =>
    intro sh sts acc h
    rcases hreg : alookup reg i with _ | ag
    · rw [execPlan_skip reg task i rest sh sts acc hreg]
      exact ih sh sts acc h
    · rcases hp : ag.execute task sh ((alookup sts i).getD {}) with ⟨res, stOut⟩
      cases res with
      | ok r =>
        rw [execPlan_step_ok reg task i rest sh sts acc ag r stOut hreg hp]
        exact ih _ _ _ (nodup_dkeys_dinsert acc i r h)
      | error e =>
        rw [execPlan_step_raise reg task i rest sh sts acc ag e stOut hreg hp]
        exact ih _ _ _ (nodup_dkeys_dinsert acc i (faultResult i e) h)

theorem fetcher_status_binary (env : Env) (task : String) (shared : SharedCtx)
    (st : AgentState) :
    (fetcherExecute env task shared st).1.status = AgentStatus.completed ∨
      (fetcherExecute env task shared st).1.status = AgentStatus.error := by
  unfold fetcherExecute
  rcases h : fetcherBody env task shared with e | p <;> simp [h]

theorem analyzer_status_binary (env : Env) (task : String) (shared : SharedCtx)
    (st : AgentState) :
    (analyzerExecute env task shared st).1.status = AgentStatus.completed ∨
      (analyzerExecute env task shared st).1.status = AgentStatus.error := by
  unfold analyzerExecute
  rcases h : analyzerBody task shared st.ctx with e | m <;> simp [h]

theorem visualizer_status_binary (env : Env) (task : String) (shared : SharedCtx)
    (st : AgentState) :
    (visualizerExecute env task shared st).1.status = AgentStatus.completed ∨
      (visualizerExecute env task shared st).1.status = AgentStatus.error := by
  unfold visualizerExecute
  rcases h : visualizerBody task shared st.ctx with e | v <;> simp [h]

theorem summarizer_status_binary (env : Env) (task : String) (shared : SharedCtx)
    (st : AgentState) :
    (summarizerExecute env task shared st).1.status = AgentStatus.completed ∨
      (summarizerExecute env task shared st).1.status = AgentStatus.error := by
  unfold summarizerExecute
  rcases h : summarizerInputs shared st.ctx with ⟨_ | fd, ar, vis⟩ <;> simp [h]

/-- Every agent of the concrete registry returns normally (each catches
internally) with a Completed-or-Error status. -/
theorem mkAgents_execute (env : Env) (i : String) (ag : Agent)
    (h : alookup (mkAgents env) i = some ag) (task : String) (sh : SharedCtx)
    (ast : AgentState) :
    ∃ r stOut, ag.execute task sh ast = (.ok r, stOut) ∧
      (r.status = AgentStatus.completed ∨ r.status = AgentStatus.error) := by
  simp only [mkAgents, alookup] at h
  split_ifs at h with h1 h2 h3 h4
  · injection h with h
    subst h
    exact ⟨_, _, rfl, fetcher_status_binary env task sh ast⟩
  · injection h with h
    subst h
    exact ⟨_, _, rfl, analyzer_status_binary env task sh ast⟩
  · injection h with h
    subst h
    exact ⟨_, _, rfl, visualizer_status_binary env task sh ast⟩
  · injection h with h
    subst h
    exact ⟨_, _, rfl, summarizer_status_binary env task sh ast⟩

/-- Every recorded Result's status is Completed or Error. -/
def statusesBinary (results : List (String × AgentResult)) : Prop :=
  ∀ kv ∈ results, kv.2.status = AgentStatus.completed ∨
    kv.2.status = AgentStatus.error

theorem execPlan_statuses (env : Env) (task : String) :
    ∀ (order : List String) (sh : SharedCtx) (sts : List (String × AgentState))
      (acc : List (String × AgentResult)), statusesBinary acc →
      statusesBinary (execPlan (mkAgents env) task order sh sts acc).1 := by
  intro order
  induction order with
  | nil =>
    intro sh sts acc h
    exact h
  | cons i rest ih =>
    intro sh sts acc h
    rcases hreg : alookup (mkAgents env) i with _ | ag
    · rw [execPlan_skip (mkAgents env) task i rest sh sts acc hreg]
      exact ih sh sts acc h
    · obtain ⟨r, stOut, hex, hst⟩ :=
        mkAgents_execute env i ag hreg task sh ((alookup sts i).getD {})
      rw [execPlan_step_ok (mkAgents env) task i rest sh sts acc ag r stOut hreg hex]
      apply ih
      intro kv hkv
      rcases mem_dinsert kv hkv with hl | hr
      · exact h kv hl
      · rw [hr]
        exact hst

/-- Aggregator partition for any binary-status result dict with unique keys. -/
theorem partition_of_binary (results : List (String × AgentResult))
    (hb : statusesBinary results) (hnd : (dkeys results).Nodup) :
    (∀ k, k ∈ dkeys results ↔
      k ∈ dkeys (successfulOf results) ∨ k ∈ dkeys (failedOf results)) ∧
    (∀ k, ¬(k ∈ dkeys (successfulOf results) ∧ k ∈ dkeys (failedOf results))) := by
  constructor
  · intro k
    constructor
    · intro hk
      obtain ⟨⟨k2, v⟩, hmem, hfst⟩ := List.mem_map.mp hk
      simp only at hfst
      subst hfst
      rcases hb _ hmem with hc | he
      · left
        have hc2 : v.status = AgentStatus.completed := hc
        exact List.mem_map.mpr
          ⟨(k2, v), List.mem_filter.mpr ⟨hmem, by simp [successfulOf, hc2]⟩, rfl⟩
      · right
        have he2 : v.status = AgentStatus.error := he
        exact List.mem_map.mpr
          ⟨(k2, v), List.mem_filter.mpr ⟨hmem, by simp [failedOf, he2]⟩, rfl⟩
    · rintro (hk | hk)
      · obtain ⟨kv, hmem, rfl⟩ := List.mem_map.mp hk
        exact List.mem_map.mpr ⟨kv, (List.mem_filter.mp hmem).1, rfl⟩
      · obtain ⟨kv, hmem, rfl⟩ := List.mem_map.mp hk
        exact List.mem_map.mpr ⟨kv, (List.mem_filter.mp hmem).1, rfl⟩
  · rintro k ⟨h1, h2⟩
    obtain ⟨⟨k1, v1⟩, hm1, hf1⟩ := List.mem_map.mp h1
    obtain ⟨⟨k2, v2⟩, hm2, hf2⟩ := List.mem_map.mp h2
    simp only at hf1 hf2
    subst hf1
    subst hf2
    obtain ⟨hin1, hs1⟩ := List.mem_filter.mp hm1
    obtain ⟨hin2, hs2⟩ := List.mem_filter.mp hm2
    have hv : v1 = v2 := mem_value_unique hnd hin1 hin2
    subst hv
    simp only [successfulOf] at hm1
    simp only [failedOf] at hm2
    have e1 : v1.status = AgentStatus.completed := by
      have := (List.mem_filter.mp hm1).2
      simpa using this
    have e2 : v1.status = AgentStatus.error := by
      have := (List.mem_filter.mp hm2).2
      simpa using this
    rw [e1] at e2
    exact absurd e2 (by decide)

/-- C3: the Executor produces a Result entry for exactly the registered ids of
`executionOrder` (unregistered ids are skipped without an entry and without
failing), a worker's raise does not stop the remaining workers (it is captured
as an Error Result and iteration continues), after a normal return the
worker's private context is merged into the shared context before the next
worker runs, and — for the concrete four-worker registry — the Aggregator's
successful/failed key lists partition the Result keys. -/
theorem c3_executor_aggregator :
    (∀ (reg : List (String × Agent)) (task : String) (order : List String)
      (sh : SharedCtx) (sts : List (String × AgentState)) (k : String),
      k ∈ dkeys (execPlan reg task order sh sts []).1 ↔
        k ∈ order ∧ (alookup reg k).isSome) ∧
    (∀ (reg : List (String × Agent)) (task i : String) (rest : List String)
      (sh : SharedCtx) (sts : List (String × AgentState))
      (acc : List (String × AgentResult)), alookup reg i = none →
      execPlan reg task (i :: rest) sh sts acc = execPlan reg task rest sh sts acc) ∧
    (∀ (reg : List (String × Agent)) (task i : String) (rest : List String)
      (sh : SharedCtx) (sts : List (String × AgentState))
      (acc : List (String × AgentResult)) (ag : Agent) (r : AgentResult)
      (stOut : AgentState), alookup reg i = some ag →
      ag.execute task sh ((alookup sts i).getD {}) = (.ok r, stOut) →
      execPlan reg task (i :: rest) sh sts acc =
        execPlan reg task rest (sh.update stOut.ctx) (dinsert sts i stOut)
          (dinsert acc i r)) ∧
    (∀ (reg : List (String × Agent)) (task i : String) (rest : List String)
      (sh : SharedCtx) (sts : List (String × AgentState))
      (acc : List (String × AgentResult)) (ag : Agent) (e : String)
      (stOut : AgentState), alookup reg i = some ag →
      ag.execute task sh ((alookup sts i).getD {}) = (.error e, stOut) →
      execPlan reg task (i :: rest) sh sts acc =
        execPlan reg task rest sh (dinsert sts i stOut)
          (dinsert acc i (faultResult i e))) ∧
    (∀ (env : Env) (task : String) (order : List String) (sh : SharedCtx)
      (sts : List (String × AgentState)),
      (∀ k, k ∈ dkeys (execPlan (mkAgents env) task order sh sts []).1 ↔
        k ∈ dkeys (successfulOf (execPlan (mkAgents env) task order sh sts []).1) ∨
          k ∈ dkeys (failedOf (execPlan (mkAgents env) task order sh sts []).1)) ∧
      (∀ k, ¬(k ∈ dkeys (successfulOf (execPlan (mkAgents env) task order sh sts []).1) ∧
        k ∈ dkeys (failedOf (execPlan (mkAgents env) task order sh sts []).1)))) := by
  refine ⟨?_, ?_, ?_, ?_, ?_⟩
  · intro reg task order sh sts k
    rw [execPlan_keys]
    simp [dkeys]
  · intro reg task i rest sh sts acc h
    exact execPlan_skip reg task i rest sh sts acc h
  · intro reg task i rest sh sts acc ag r stOut h1 h2
    exact execPlan_step_ok reg task i rest sh sts acc ag r stOut h1 h2
  · intro reg task i rest sh sts acc ag e stOut h1 h2
    exact execPlan_step_raise reg task i rest sh sts acc ag e stOut h1 h2
  · intro env task order sh sts
    exact partition_of_binary _
      (execPlan_statuses env task order sh sts [] (by intro kv hkv; simp at hkv))
      (execPlan_keys_nodup (mkAgents env) task order sh sts [] (by simp [dkeys]))

/-- Witness for C3: the skip, normal and raise steps of the executor at
concrete inputs (a registry with one normal and one raising worker). -/
theorem c3_witness :
    (execPlan witnessReg "t" ["nope"] {} [] [] = execPlan witnessReg "t" [] {} [] []) ∧
    (execPlan witnessReg "t" ["w"] {} [] [] =
      execPlan witnessReg "t" [] (SharedCtx.update {} ({} : AgentState).ctx)
        (dinsert [] "w" {}) (dinsert [] "w" okResult)) ∧
    (execPlan witnessReg "t" ["r"] {} [] [] =
      execPlan witnessReg "t" [] {} (dinsert [] "r" {})
        (dinsert [] "r" (faultResult "r" "kaboom"))) := by
  refine ⟨?_, ?_, ?_⟩
  · exact c3_executor_aggregator.2.1 witnessReg "t" "nope" [] {} [] [] rfl
  · exact c3_executor_aggregator.2.2.1 witnessReg "t" "w" [] {} [] [] okAgent
      okResult {} rfl rfl
  · exact c3_executor_aggregator.2.2.2.1 witnessReg "t" "r" [] {} [] [] raisingAgent
      "kaboom" {} rfl rfl

/-! ### Claim C8 -/

/-- C8 counterexample: entries written by workers during one request ARE
visible during a later request on the same orchestrator. Request 1 fetches
Government data (fetcher completes, caching `financial_data` in its private
context). Request 2 (empty caller context) asks for Enterprise data: its
fetcher run fails, yet the executor still merges the fetcher's persistent
private context into the fresh shared context, so the analyzer completes on
request 1's data (`total_profit = 10`). Under the claim the analyzer would
have no financial data and fail — as it indeed does when the same second
request runs on a fresh orchestrator (last conjunct). -/
theorem c8_counterexample :
    envFailed c8Run2.2 = some ["data_fetcher"] ∧
    envSuccessful c8Run2.2 = some ["analyzer"] ∧
    envAnalysisLookup "total_profit" c8Run2.2 = some (.num (RF.val 10)) ∧
    envSuccessful c8RunFresh.2 = some [] := by
  refine ⟨?_, ?_, ?_, ?_⟩
  · rfl
  · rfl
  · with_unfolding_all rfl
  · rfl

/-- C8 (amended): every execution starts from a shared context that is exactly
the caller-supplied mapping (the Planner passes the context through unchanged
into the plan, and the Executor starts from the plan's context), and a resumed
post-clarification request re-runs `process_request` on a fresh context whose
only entry is `clarification_answers`; HOWEVER, the workers' private contexts
persist across requests on the same orchestrator instance, and after a worker
runs its FULL private context is merged into the shared context, which is how
entries written during one request can become visible during a later one. -/
theorem c8_context_freshness (env : Env) (st : OrchState) (request : String)
    (ctx : SharedCtx) (answers : List (String × String)) :
    (planTask env request ctx).context = ctx ∧
    (st.status = TaskStatus.waitingForClarification →
      handleClarification env st answers =
        processRequest env { st with status := TaskStatus.planning } st.currentTask
          { clarification_answers := some answers }) ∧
    (∀ (reg : List (String × Agent)) (task i : String) (rest : List String)
      (sh : SharedCtx) (sts : List (String × AgentState))
      (acc : List (String × AgentResult)) (ag : Agent) (r : AgentResult)
      (stOut : AgentState), alookup reg i = some ag →
      ag.execute task sh ((alookup sts i).getD {}) = (.ok r, stOut) →
      execPlan reg task (i :: rest) sh sts acc =
        execPlan reg task rest (sh.update stOut.ctx) (dinsert sts i stOut)
          (dinsert acc i r)) := by
  refine ⟨?_, ?_, ?_⟩
  · unfold planTask
    rcases env.planOutcome with e | j
    · show (createFallbackPlan request ctx).context = ctx
      unfold createFallbackPlan
      by_cases hv : (!ctx.answersTruthy && isVague request) = true
      · simp [hv]
      · simp [hv]
    · rfl
  · intro h
    simp [handleClarification, h, onlyAnswers]
  · intro reg task i rest sh sts acc ag r stOut h1 h2
    exact execPlan_step_ok reg task i rest sh sts acc ag r stOut h1 h2

/-- Witness for C8's amended theorem at concrete inputs. -/
theorem c8_witness :
    ((planTask {} "t" { financial_data := some c9Fd }).context =
      { financial_data := some c9Fd }) ∧
    (handleClarification {} { status := TaskStatus.waitingForClarification }
        [("q", "a")] =
      processRequest {} { status := TaskStatus.planning } ""
        { clarification_answers := some [("q", "a")] }) ∧
    (execPlan witnessReg "w" ["w"] {} [] [] =
      execPlan witnessReg "w" [] (SharedCtx.update {} ({} : AgentState).ctx)
        (dinsert [] "w" {}) (dinsert [] "w" okResult)) := by
  refine ⟨?_, ?_, ?_⟩
  · exact (c8_context_freshness {} {} "t" { financial_data := some c9Fd } []).1
  · exact (c8_context_freshness {} { status := TaskStatus.waitingForClarification }
      "" {} [("q", "a")]).2.1 rfl
  · exact (c8_context_freshness {} {} "w" {} []).2.2 witnessReg "w" "w" [] {} [] []
      okAgent okResult {} rfl rfl

/-! ### Claim C9: rounding lemmas for the analyzer mapping -/

theorem rounded2_of_rounded0 (r : RF) (h : r.rounded0 = true) :
    r.rounded2 = true := by
  cases r with
  | nan => rfl
  | inf => rfl
  | ninf => rfl
  | val q =>
    simp [RF.rounded0] at h
    simp [RF.rounded2]
    have hq : (q.num : ℚ) = q := by
      have h2 := Rat.num_div_den q
      rw [h] at h2
      simpa using h2
    have hmul : q * 100 = ((q.num * 100 : ℤ) : ℚ) := by
      push_cast
      rw [hq]
    rw [hmul]
    exact Rat.den_intCast _

theorem entryOKB_of_ne (k : String) (v : AVal) (h : avalRoundedB v = true)
    (hk : k ≠ "total_units") : entryOKB k v = true := by
  simp [entryOKB, h, hk]

theorem entryOKB_units (r : RF) (h1 : RF.rounded2 r = true)
    (h2 : RF.rounded0 r = true) : entryOKB "total_units" (.num r) = true := by
  simp [entryOKB, avalRoundedB, h1, h2]

theorem avalRoundedB_num (r : RF) (h : r.rounded2 = true) :
    avalRoundedB (.num r) = true := by
  simpa [avalRoundedB] using h

theorem avalRoundedB_str (s : String) : avalRoundedB (.str s) = true := by
  simp [avalRoundedB]

theorem avalRoundedB_dict2 (m : List (String × List (String × RF)))
    (h : ∀ kv ∈ m, (kv.2.all fun kv2 => kv2.2.rounded2) = true) :
    avalRoundedB (.dict2 m) = true := by
  rw [show avalRoundedB (.dict2 m) =
        m.all (fun kv => kv.2.all fun kv2 => kv2.2.rounded2) from rfl,
    List.all_eq_true]
  intro kv hkv
  exact h kv hkv

/-- Entries acceptable inside a sub-analysis dict: outside the unrounded keys
and `total_profit` (which the final basic metrics overwrite), values are
rounded. -/
def pieceOK (p : Analysis) : Prop :=
  ∀ kv ∈ p, kv.1 ∉ unroundedKeys → kv.1 ≠ "total_profit" → entryOKB kv.1 kv.2 = true

theorem all_rounded_map {β : Type} (gs : List β) (key : β → String) (v : β → RF) :
    ((gs.map fun g => (key g, RF.roundP 2 (v g))).all fun kv => kv.2.rounded2) = true := by
  rw [List.all_eq_true]
  intro kv hkv
  obtain ⟨g, hg, rfl⟩ := List.mem_map.mp hkv
  exact rounded2_roundP (v g)

theorem analyzeTrends_empty (df : DF) (h : Col.profit ∉ df.cols) :
    analyzeTrends df = [] := by
  simp [analyzeTrends, h]

theorem analyzePerformance_empty (df : DF) (h : Col.profit ∉ df.cols) :
    analyzePerformance df = [] := by
  simp [analyzePerformance, h]

theorem analyzeQuarters_noProfit (df : DF) (h : Col.profit ∉ df.cols) :
    analyzeQuarters df = .ok [] := by
  simp [analyzeQuarters, h]

theorem analyzeByDim_noProfit (df : DF) (dimCol : Col) (keyOf : Row → String)
    (pk bk wk : String) (h : Col.profit ∉ df.cols) :
    analyzeByDim df dimCol keyOf pk bk wk = .ok [] := by
  simp [analyzeByDim, h]

theorem pieceOK_nil : pieceOK [] := by
  intro kv hkv
  simp at hkv

theorem pieceOK_trends (df : DF) : pieceOK (analyzeTrends df) := by
  intro kv hkv hk1 hk2
  unfold analyzeTrends at hkv
  by_cases h : Col.profit ∈ df.cols
  · rw [if_neg (not_not_intro h)] at hkv
    simp at hkv
    rcases hkv with rfl | rfl | rfl | rfl
    · exact entryOKB_of_ne "trend_direction" _ (avalRoundedB_str _) (by decide)
    · exact entryOKB_of_ne "profit_change_percent" _
        (avalRoundedB_num _ (rounded2_roundP _)) (by decide)
    · exact absurd rfl hk2
    · exact absurd (show "avg_daily_profit" ∈ unroundedKeys by decide) hk1
  · rw [if_pos h] at hkv
    simp at hkv

theorem pieceOK_performance (df : DF) : pieceOK (analyzePerformance df) := by
  intro kv hkv hk1 hk2
  unfold analyzePerformance at hkv
  by_cases h : Col.profit ∈ df.cols
  · rw [if_neg (not_not_intro h)] at hkv
    by_cases hu : Col.unitsSold ∈ df.cols
    · simp [hu] at hkv
      rcases hkv with rfl | rfl | rfl | rfl | rfl
      · exact absurd rfl hk2
      · exact entryOKB_of_ne "avg_profit" _
          (avalRoundedB_num _ (rounded2_roundP _)) (by decide)
      · exact entryOKB_of_ne "profit_std" _
          (avalRoundedB_num _ (rounded2_roundP _)) (by decide)
      · exact entryOKB_of_ne "profit_margin_percent" _
          (avalRoundedB_num _ (rounded2_roundP _)) (by decide)
      · exact absurd (show "profit_per_unit" ∈ unroundedKeys by decide) hk1
    · simp [hu] at hkv
      rcases hkv with rfl | rfl | rfl | rfl
      · exact absurd rfl hk2
      · exact entryOKB_of_ne "avg_profit" _
          (avalRoundedB_num _ (rounded2_roundP _)) (by decide)
      · exact entryOKB_of_ne "profit_std" _
          (avalRoundedB_num _ (rounded2_roundP _)) (by decide)
      · exact entryOKB_of_ne "profit_margin_percent" _
          (avalRoundedB_num _ (rounded2_roundP _)) (by decide)
  · rw [if_pos h] at hkv
    simp at hkv

theorem pieceOK_quarters (df : DF) (q : Analysis)
    (h : analyzeQuarters df = .ok q) : pieceOK q := by
  unfold analyzeQuarters at h
  split_ifs at h with h1 h2 h3 h4 h5
  · cases h
    exact pieceOK_nil
  · cases h
    intro kv hkv hk1 hk2
    simp at hkv
    subst hkv
    exact entryOKB_of_ne "quarterly_analysis" _ (avalRoundedB_str _) (by decide)
  · cases h
    intro kv hkv hk1 hk2
    simp at hkv
    rcases hkv with rfl | rfl | rfl | rfl | rfl | rfl
    · exact absurd (show "quarterly_profit" ∈ unroundedKeys by decide) hk1
    · exact absurd (show "quarterly_profit_changes" ∈ unroundedKeys by decide) hk1
    · exact entryOKB_of_ne "last_3_quarters_avg_change" _
        (avalRoundedB_num _ (rounded2_roundP _)) (by decide)
    · exact entryOKB_of_ne "quarterly_volatility" _
        (avalRoundedB_num _ (rounded2_roundP _)) (by decide)
    · exact entryOKB_of_ne "best_quarter" _
        (avalRoundedB_num _ (rounded2_roundP _)) (by decide)
    · exact entryOKB_of_ne "worst_quarter" _
        (avalRoundedB_num _ (rounded2_roundP _)) (by decide)

theorem pieceOK_byDim (df : DF) (dimCol : Col) (keyOf : Row → String)
    (pk bk wk : String) (q : Analysis)
    (h : analyzeByDim df dimCol keyOf pk bk wk = .ok q)
    (hpk : pk ≠ "total_units") (hbk : bk ≠ "total_units")
    (hwk : wk ≠ "total_units") : pieceOK q := by
  unfold analyzeByDim at h
  split_ifs at h with h1 h2 h3
  · cases h
    exact pieceOK_nil
  · cases h
    intro kv hkv hk1 hk2
    simp only [List.mem_cons, List.not_mem_nil, or_false] at hkv
    rcases hkv with rfl | rfl | rfl
    · refine entryOKB_of_ne pk _ ?_ hpk
      refine avalRoundedB_dict2 _ ?_
      intro kv2 hkv2
      simp only [List.mem_cons, List.not_mem_nil, or_false] at hkv2
      rcases hkv2 with rfl | rfl | rfl | rfl | rfl | rfl <;>
        exact all_rounded_map _ _ _
    · exact entryOKB_of_ne bk _ (avalRoundedB_str _) hbk
    · exact entryOKB_of_ne wk _ (avalRoundedB_str _) hwk

theorem mem_ite_list {α : Type} {c : Prop} [Decidable c] {L : List α} {x : α}
    (h : x ∈ if c then L else []) : x ∈ L := by
  split at h
  · exact h
  · simp at h

theorem basics_entryOK (df : DF) :
    ∀ kv ∈ calculateBasicMetrics df, entryOKB kv.1 kv.2 = true := by
  intro kv hkv
  unfold calculateBasicMetrics at hkv
  rcases List.mem_append.mp hkv with hkv | hkv
  · rcases List.mem_append.mp hkv with hkv | hkv
    · rcases List.mem_append.mp hkv with hkv | hkv
      · have hkv := mem_ite_list hkv
        simp at hkv
        rcases hkv with rfl | rfl | rfl | rfl
        · exact entryOKB_of_ne "total_profit" _
            (avalRoundedB_num _ (rounded2_roundP _)) (by decide)
        · exact entryOKB_of_ne "max_profit" _
            (avalRoundedB_num _ (rounded2_roundP _)) (by decide)
        · exact entryOKB_of_ne "min_profit" _
            (avalRoundedB_num _ (rounded2_roundP _)) (by decide)
        · exact entryOKB_of_ne "avg_profit" _
            (avalRoundedB_num _ (rounded2_roundP _)) (by decide)
      · have hkv := mem_ite_list hkv
        simp at hkv
        rcases hkv with rfl | rfl
        · exact entryOKB_of_ne "total_sales" _
            (avalRoundedB_num _ (rounded2_roundP _)) (by decide)
        · exact entryOKB_of_ne "avg_sales" _
            (avalRoundedB_num _ (rounded2_roundP _)) (by decide)
    · have hkv := mem_ite_list hkv
      simp at hkv
      rcases hkv with rfl | rfl
      · exact entryOKB_units _ (rounded2_of_rounded0 _ (rounded0_roundP _))
          (rounded0_roundP _)
      · exact entryOKB_of_ne "avg_units" _
          (avalRoundedB_num _ (rounded2_roundP _)) (by decide)
  · have hkv := mem_ite_list hkv
    simp at hkv
    rcases hkv with rfl | rfl
    · exact entryOKB_of_ne "total_cogs" _
        (avalRoundedB_num _ (rounded2_roundP _)) (by decide)
    · exact entryOKB_of_ne "avg_cogs" _
        (avalRoundedB_num _ (rounded2_roundP _)) (by decide)

theorem basics_nodup (df : DF) : (dkeys (calculateBasicMetrics df)).Nodup := by
  unfold calculateBasicMetrics
  by_cases h1 : Col.profit ∈ df.cols <;> by_cases h2 : Col.grossSales ∈ df.cols <;>
    by_cases h3 : Col.unitsSold ∈ df.cols <;> by_cases h4 : Col.cogs ∈ df.cols <;>
      simp [h1, h2, h3, h4, dkeys]

theorem basics_total_profit (df : DF) (h : Col.profit ∈ df.cols) :
    ("total_profit",
      AVal.num (RF.roundP 2 (RF.sum (df.rows.map fun r => RF.val r.profit)))) ∈
      calculateBasicMetrics df := by
  unfold calculateBasicMetrics
  simp [h]

theorem basics_no_total_profit (df : DF) (h : Col.profit ∉ df.cols) :
    "total_profit" ∉ dkeys (calculateBasicMetrics df) := by
  unfold calculateBasicMetrics
  by_cases h2 : Col.grossSales ∈ df.cols <;> by_cases h3 : Col.unitsSold ∈ df.cols <;>
    by_cases h4 : Col.cogs ∈ df.cols <;> simp [h, h2, h3, h4, dkeys]

theorem except_bind_ok {α β : Type} (x : Except String α) (f : α → Except String β)
    (b : β) (h : x.bind f = .ok b) : ∃ a, x = .ok a ∧ f a = .ok b := by
  cases x with
  | error e =>
    exfalso
    have hred : (Except.error e : Except String α).bind f = Except.error e := rfl
    rw [hred] at h
    exact absurd h (by simp)
  | ok a =>
    refine ⟨a, rfl, ?_⟩
    have hred : (Except.ok a : Except String α).bind f = f a := rfl
    rw [hred] at h
    exact h

theorem analyzerPieces_shape (df : DF) (tl : String) (ps : List Analysis)
    (h : analyzerPieces df tl = .ok ps) :
    ∃ p1 p2 p3 p4 p5 p6,
      ps = [p1, p2, p3, p4, p5, p6, calculateBasicMetrics df] ∧
      (p1 = [] ∨ p1 = analyzeTrends df) ∧
      (p2 = [] ∨ analyzeQuarters df = .ok p2) ∧
      (p3 = [] ∨ p3 = analyzePerformance df) ∧
      (p4 = [] ∨ analyzeByDim df Col.segment Row.segment "segment_performance"
          "best_segment" "worst_segment" = .ok p4) ∧
      (p5 = [] ∨ analyzeByDim df Col.country Row.country "country_performance"
          "best_country" "worst_country" = .ok p5) ∧
      (p6 = [] ∨ analyzeByDim df Col.product Row.product "product_performance"
          "best_product" "worst_product" = .ok p6) := by
  unfold analyzerPieces at h
  obtain ⟨p2, h2, h⟩ := except_bind_ok _ _ _ h
  obtain ⟨p4, h4, h⟩ := except_bind_ok _ _ _ h
  obtain ⟨p5, h5, h⟩ := except_bind_ok _ _ _ h
  obtain ⟨p6, h6, h⟩ := except_bind_ok _ _ _ h
  cases h
  refine ⟨_, p2, _, p4, p5, p6, rfl, ?_, ?_, ?_, ?_, ?_, ?_⟩
  · by_cases hc : strContains tl "trend" = true
    · right
      rw [if_pos hc]
    · left
      rw [if_neg hc]
  · by_cases hc : strContains tl "quarter" = true
    · right
      rw [if_pos hc] at h2
      exact h2
    · left
      rw [if_neg hc] at h2
      cases h2
      rfl
  · by_cases hc : (strContains tl "performance" || strContains tl "profit") = true
    · right
      rw [if_pos hc]
    · left
      rw [if_neg hc]
  · by_cases hc : strContains tl "segment" = true
    · right
      rw [if_pos hc] at h4
      exact h4
    · left
      rw [if_neg hc] at h4
      cases h4
      rfl
  · by_cases hc : strContains tl "country" = true
    · right
      rw [if_pos hc] at h5
      exact h5
    · left
      rw [if_neg hc] at h5
      cases h5
      rfl
  · by_cases hc : strContains tl "product" = true
    · right
      rw [if_pos hc] at h6
      exact h6
    · left
      rw [if_neg hc] at h6
      cases h6
      rfl

theorem analyzerMapping_rounded (df : DF) (tl : String) (m : Analysis)
    (hb : analyzerMapping df tl = .ok m) (k : String) (v : AVal)
    (hk : k ∉ unroundedKeys) (hv : alookup m k = some v) : entryOKB k v = true := by
  unfold analyzerMapping at hb
  rcases hp : analyzerPieces df tl with e | ps
  · rw [hp] at hb
    exact absurd hb (by simp [Except.map])
  · rw [hp] at hb
    simp only [Except.map] at hb
    injection hb with hb
    subst hb
    obtain ⟨p1, p2, p3, p4, p5, p6, hps, H1, H2, H3, H4, H5, H6⟩ :=
      analyzerPieces_shape df tl ps hp
    subst hps
    by_cases hkp : k = "total_profit"
    · subst hkp
      by_cases hprof : Col.profit ∈ df.cols
      · have hlast := alookup_foldl_last [p1, p2, p3, p4, p5, p6]
          (calculateBasicMetrics df) [] (basics_nodup df)
          (basics_total_profit df hprof)
        have heq : [p1, p2, p3, p4, p5, p6] ++ [calculateBasicMetrics df] =
            [p1, p2, p3, p4, p5, p6, calculateBasicMetrics df] := rfl
        rw [heq] at hlast
        rw [hv] at hlast
        injection hlast with hlast
        subst hlast
        exact entryOKB_of_ne "total_profit" _
          (avalRoundedB_num _ (rounded2_roundP _)) (by decide)
      · have hp1 : p1 = [] := by
          rcases H1 with h | h
          · exact h
          · rw [h]
            exact analyzeTrends_empty df hprof
        have hp2 : p2 = [] := by
          rcases H2 with h | h
          · exact h
          · rw [analyzeQuarters_noProfit df hprof] at h
            cases h
            rfl
        have hp3 : p3 = [] := by
          rcases H3 with h | h
          · exact h
          · rw [h]
            exact analyzePerformance_empty df hprof
        have hp4 : p4 = [] := by
          rcases H4 with h | h
          · exact h
          · rw [analyzeByDim_noProfit df _ _ _ _ _ hprof] at h
            cases h
            rfl
        have hp5 : p5 = [] := by
          rcases H5 with h | h
          · exact h
          · rw [analyzeByDim_noProfit df _ _ _ _ _ hprof] at h
            cases h
            rfl
        have hp6 : p6 = [] := by
          rcases H6 with h | h
          · exact h
          · rw [analyzeByDim_noProfit df _ _ _ _ _ hprof] at h
            cases h
            rfl
        have hall : ∀ p ∈ [p1, p2, p3, p4, p5, p6, calculateBasicMetrics df],
            "total_profit" ∉ dkeys p := by
          intro p hpm
          simp only [List.mem_cons, List.not_mem_nil, or_false] at hpm
          rcases hpm with rfl | rfl | rfl | rfl | rfl | rfl | rfl
          · rw [hp1]
            simp [dkeys]
          · rw [hp2]
            simp [dkeys]
          · rw [hp3]
            simp [dkeys]
          · rw [hp4]
            simp [dkeys]
          · rw [hp5]
            simp [dkeys]
          · rw [hp6]
            simp [dkeys]
          · exact basics_no_total_profit df hprof
        have hnone := alookup_foldl_nmem ([] : Analysis) "total_profit" hall
        rw [hnone] at hv
        exact absurd hv (by simp [alookup])
    · rcases alookup_foldl_mem [] hv with hnil | ⟨p, hpmem, hmem⟩
      · exact absurd hnil (by simp [alookup])
      · simp only [List.mem_cons, List.not_mem_nil, or_false] at hpmem
        rcases hpmem with rfl | rfl | rfl | rfl | rfl | rfl | rfl
        · rcases H1 with h | h
          · rw [h] at hmem
            simp at hmem
          · rw [h] at hmem
            exact pieceOK_trends df (k, v) hmem hk hkp
        · rcases H2 with h | h
          · rw [h] at hmem
            simp at hmem
          · exact pieceOK_quarters df _ h (k, v) hmem hk hkp
        · rcases H3 with h | h
          · rw [h] at hmem
            simp at hmem
          · rw [h] at hmem
            exact pieceOK_performance df (k, v) hmem hk hkp
        · rcases H4 with h | h
          · rw [h] at hmem
            simp at hmem
          · exact pieceOK_byDim df Col.segment Row.segment "segment_performance"
              "best_segment" "worst_segment" _ h (by decide) (by decide) (by decide)
              (k, v) hmem hk hkp
        · rcases H5 with h | h
          · rw [h] at hmem
            simp at hmem
          · exact pieceOK_byDim df Col.country Row.country "country_performance"
              "best_country" "worst_country" _ h (by decide) (by decide) (by decide)
              (k, v) hmem hk hkp
        · rcases H6 with h | h
          · rw [h] at hmem
            simp at hmem
          · exact pieceOK_byDim df Col.product Row.product "product_performance"
              "best_product" "worst_product" _ h (by decide) (by decide) (by decide)
              (k, v) hmem hk hkp
        · exact basics_entryOK df (k, v) hmem

/-- C9 (amended): for every environment, task, shared context and agent state,
every value in the analysis mapping returned by the Analyzer is rounded to
2 decimal places (the unit count `total_units` additionally to 0 decimals),
except for the four outputs the source emits without rounding:
`avg_daily_profit`, `profit_per_unit`, `quarterly_profit` and
`quarterly_profit_changes`. -/
theorem c9_analyzer_rounding (env : Env) (task : String) (shared : SharedCtx)
    (st : AgentState) (m : Analysis)
    (hm : resultAnalysis (analyzerExecute env task shared st).1 = some m)
    (k : String) (v : AVal) (hk : k ∉ unroundedKeys)
    (hv : alookup m k = some v) : entryOKB k v = true := by
  unfold analyzerExecute at hm
  rcases hb : analyzerBody task shared st.ctx with e | m2
  · simp [hb, resultAnalysis] at hm
  · simp [hb, resultAnalysis] at hm
    subst hm
    unfold analyzerBody at hb
    rcases hfd : ctxFinancialData shared st.ctx with _ | fd
    · simp [hfd] at hb
    · simp only [hfd] at hb
      by_cases hemp : (dfFromRecords fd.columns fd.raw_data).rows.isEmpty = true
      · rw [if_pos hemp] at hb
        cases hb
      · rw [if_neg hemp] at hb
        exact analyzerMapping_rounded _ _ _ hb k v hk hv

/-- The analysis mapping the analyzer produces for the two-row frame of
`c9Fd` under the task "examine the trend". -/
def c9Mapping : Analysis :=
  [("trend_direction", .str "upward"),
   ("profit_change_percent", .num (.val 100)),
   ("total_profit", .num (.val (3 / 100))),
   ("avg_daily_profit", .num (.val (3 / 200))),
   ("max_profit", .num (.val (1 / 50))),
   ("min_profit", .num (.val (1 / 100))),
   ("avg_profit", .num (.val (1 / 50)))]

/-- C9 counterexample: on a concrete two-row frame the analyzer's returned
mapping holds `avg_daily_profit = 0.015`, a value that is not a multiple of
one hundredth, refuting the claim that every numeric output is rounded to
2 decimal places. -/
theorem c9_counterexample :
    ((resultAnalysis (analyzerExecute {} "examine the trend"
        { financial_data := some c9Fd } {}).1).bind
      (fun m => alookup m "avg_daily_profit")) = some (.num (RF.val (3 / 200))) ∧
    RF.rounded2 (RF.val (3 / 200)) = false := by
  constructor
  · with_unfolding_all rfl
  · with_unfolding_all rfl

/-- Witness for the amended C9 theorem: its hypotheses discharged on the
concrete two-row frame, at the key `max_profit`. -/
theorem c9_witness : entryOKB "max_profit" (AVal.num (RF.val (1 / 50))) = true :=
  c9_analyzer_rounding {} "examine the trend" { financial_data := some c9Fd } {}
    c9Mapping (by with_unfolding_all rfl) "max_profit" (AVal.num (RF.val (1 / 50)))
    (by decide) (by with_unfolding_all rfl)

end MultiAgent
